import Mathlib

/-!
Verification of the porch package-revision engine (porch/pkg/engine/engine.go).

The Go source is shallowly embedded: the engine's decision logic is translated
into executable Lean functions; calls into external collaborators (repository
drivers, metadata store internals, yaml library, function runtime, renderer,
diff generation) are represented by oracle functions collected in an `Env`
structure.  Structures named after Go API types whose definitions live outside
the provided sources (porch api package, builtins) are modelled from the spec;
each such definition carries a doc comment saying so.
-/

namespace Porch

/-- A package file set: relative path to UTF-8 contents (Go map modelled as an
association list; Go map iteration order is unspecified, here it is list order). -/
abbrev FileMap := List (String × String)

/-- Look up a key in a file map (Go map indexing `m[k]` with ok-flag). -/
def lookupFM (m : FileMap) (k : String) : Option String :=
  (m.find? (fun kv => kv.1 == k)).map (fun kv => kv.2)

/-- Set a key in an association map: replaces the existing binding or appends. -/
def setFM (m : FileMap) (k v : String) : FileMap :=
  if (m.find? (fun kv => kv.1 == k)).isSome then
    m.map (fun kv => if kv.1 == k then (k, v) else kv)
  else
    m ++ [(k, v)]

/-- Modelled from the spec: task type constants of the porch api package
(api/porch/v1alpha1, not under src). TaskType is a Go string type. -/
def TaskTypeInit : String := "init"

/-- Modelled from the spec: task type constant for Clone tasks. -/
def TaskTypeClone : String := "clone"

/-- Modelled from the spec: task type constant for Update tasks. -/
def TaskTypeUpdate : String := "update"

/-- Modelled from the spec: task type constant for Patch tasks. -/
def TaskTypePatch : String := "patch"

/-- Modelled from the spec: task type constant for Edit tasks. -/
def TaskTypeEdit : String := "edit"

/-- Modelled from the spec: task type constant for Eval tasks. -/
def TaskTypeEval : String := "eval"

/-- Modelled from the spec: lifecycle constant "Draft". -/
def LifecycleDraft : String := "Draft"

/-- Modelled from the spec: lifecycle constant "Proposed". -/
def LifecycleProposed : String := "Proposed"

/-- Modelled from the spec: lifecycle constant "Published". -/
def LifecyclePublished : String := "Published"

/-- Modelled from the spec: patch type constant for file creation. -/
def PatchTypeCreateFile : String := "CreateFile"

/-- Modelled from the spec: patch type constant for file deletion. -/
def PatchTypeDeleteFile : String := "DeleteFile"

/-- Modelled from the spec: patch type constant for a unified-diff file patch. -/
def PatchTypePatchFile : String := "PatchFile"

/-- Modelled from the spec: the reserved context ConfigMap name (builtins.PkgContextName). -/
def PkgContextName : String := "kptfile.kpt.dev"

/-- Modelled from the spec: the context ConfigMap file name (builtins.PkgContextFile). -/
def PkgContextFile : String := "package-context.yaml"

/-- Modelled from the spec: the package-path data key (builtins.ConfigKeyPackagePath). -/
def ConfigKeyPackagePath : String := "package-path"

/-- Modelled from the spec: synthetic latest-revision label key. -/
def LatestPackageRevisionKey : String := "kpt.dev/latest-revision"

/-- Modelled from the spec: synthetic latest-revision label value. -/
def LatestPackageRevisionValue : String := "true"

/-- Go %q formatting of a string (quotation marks around the value). -/
def quoteS (s : String) : String := "\"" ++ s ++ "\""

/-- Modelled from the spec: api.PackageInitTaskSpec (porch api package, not under src). -/
structure PackageInitTaskSpec where
  subpackage : String
  description : String
deriving DecidableEq

/-- Modelled from the spec: a reference to a peer package revision. -/
structure PackageRevisionRef where
  name : String
deriving DecidableEq

/-- Modelled from the spec: an upstream package locator; `type_` is "git", "oci",
or empty for a porch-native (peer) upstream carrying an upstreamRef. -/
structure UpstreamPackage where
  type_ : String
  git : Option String
  oci : Option String
  upstreamRef : Option PackageRevisionRef
deriving DecidableEq

/-- Modelled from the spec: repository type constant "git". -/
def RepositoryTypeGit : String := "git"

/-- Modelled from the spec: repository type constant "oci". -/
def RepositoryTypeOci : String := "oci"

/-- Modelled from the spec: api.PackageCloneTaskSpec. -/
structure PackageCloneTaskSpec where
  upstream : UpstreamPackage
  strategy : String
deriving DecidableEq

/-- Modelled from the spec: api.PackageUpdateTaskSpec. -/
structure PackageUpdateTaskSpec where
  upstream : UpstreamPackage
deriving DecidableEq

/-- Modelled from the spec: api.PatchSpec (file, patch type, patch body). -/
structure PatchSpec where
  file : String
  contents : String
  patchType : String
deriving DecidableEq

/-- Modelled from the spec: api.PackagePatchTaskSpec. -/
structure PackagePatchTaskSpec where
  patches : List PatchSpec
deriving DecidableEq

/-- Modelled from the spec: api.PackageEditTaskSpec. -/
structure PackageEditTaskSpec where
  source : PackageRevisionRef
deriving DecidableEq

/-- Modelled from the spec: api.PackageEvalTaskSpec (function image plus config). -/
structure PackageEvalTaskSpec where
  image : String
  configMap : List (String × String)
deriving DecidableEq

/-- Modelled from the spec: api.Task, a tagged variant: a string Type tag plus
one optional payload pointer per kind (Go nil pointers are `none`).
Go reflect.DeepEqual on Tasks is structural equality here. -/
structure Task where
  type_ : String
  init : Option PackageInitTaskSpec := none
  clone : Option PackageCloneTaskSpec := none
  update : Option PackageUpdateTaskSpec := none
  patch : Option PackagePatchTaskSpec := none
  edit : Option PackageEditTaskSpec := none
  eval : Option PackageEvalTaskSpec := none
deriving DecidableEq

/-- Modelled from the spec: a readiness gate projected into the Kptfile. -/
structure ReadinessGate where
  conditionType : String
deriving DecidableEq

/-- Modelled from the spec: a status condition (api and kptfile forms share this shape). -/
structure KCondition where
  type_ : String
  status : String
  reason : String
  message : String
deriving DecidableEq

/-- Modelled from the spec: kptfile.PackageInfo (readiness gates only, as used by the engine). -/
structure PackageInfo where
  readinessGates : List ReadinessGate
deriving DecidableEq

/-- Modelled from the spec: kptfile.Status (conditions only, as used by the engine). -/
structure KStatus where
  conditions : List KCondition
deriving DecidableEq

/-- Modelled from the spec: the Kptfile projection the engine reads and patches. -/
structure Kptfile where
  info : Option PackageInfo
  status : Option KStatus
deriving DecidableEq

/-- Modelled from the spec: the kptfile file name constant (kptfile.KptFileName). -/
def KptFileName : String := "Kptfile"

/-- Modelled from the spec: api.PackageRevisionSpec fields used by the engine. -/
structure PackageRevisionSpec where
  packageName : String
  revision : String
  lifecycle : String
  tasks : List Task
  readinessGates : List ReadinessGate
deriving DecidableEq

/-- Modelled from the spec: the api.PackageRevision object handed to the engine
(metadata name/namespace, labels, annotations, spec, status conditions). -/
structure ApiPackageRevision where
  name : String
  nspace : String
  labels : List (String × String)
  annotations : List (String × String)
  spec : PackageRevisionSpec
  conditions : List KCondition
deriving DecidableEq

/-- Modelled from the spec: configapi.Repository fields used by the engine. -/
structure Repository where
  name : String
  nspace : String
  deployment : Bool
deriving DecidableEq

/-- Modelled from the spec: a repository-stored package revision handle
(what repository.PackageRevision exposes to the engine). -/
structure StoredRevision where
  name : String
  nspace : String
  packageName : String
  revision : String
  lifecycle : String
  tasks : List Task
  contents : FileMap
  labels : List (String × String)
  annotations : List (String × String)
deriving DecidableEq

/-- Modelled from the spec: meta.PackageRevisionMeta, the metadata-store record. -/
structure MetaRecord where
  name : String
  nspace : String
  labels : List (String × String)
  annotations : List (String × String)
deriving DecidableEq

/-- The Go zero value of meta.PackageRevisionMeta. -/
def emptyMeta : MetaRecord :=
  { name := "", nspace := "", labels := [], annotations := [] }

/-- The engine's PackageRevision: a repository revision handle aggregated with
its metadata record (engine.go PackageRevision struct). -/
structure EnginePackageRevision where
  repoRev : StoredRevision
  revMeta : MetaRecord
deriving DecidableEq

/-- builtins.PackageConfig as consumed by the engine (package path only). -/
structure PackageConfig where
  packagePath : String
deriving DecidableEq

/-- A kyaml resource node as seen by healConfig: identifying metadata plus an
abstract body (contents and comments). -/
structure Node where
  nspace : String
  name : String
  apiVersion : String
  kind : String
  body : String
deriving DecidableEq

/-- An unstructured Kubernetes object as seen by ExtractContextConfigMap:
group, kind, object name, and ConfigMap data. -/
structure KObject where
  group : String
  kind : String
  name : String
  data : List (String × String)
deriving DecidableEq

/-- Modelled from the spec: a draft, the repository's transient mutable handle.
`newTasks` records the audit task of every UpdateResources call in order. -/
structure DraftState where
  name : String
  nspace : String
  packageName : String
  revision : String
  baseTasks : List Task
  newTasks : List Task
  contents : FileMap
  lifecycle : String
deriving DecidableEq

/-- Oracles for the external collaborators the engine calls: repository layer,
yaml library, function runtime, renderer, fetchers, diff generation. -/
structure Env where
  openRepo : Repository → Except String Unit
  deleteRevision : StoredRevision → Except String Unit
  initContent : String → Task → FileMap → Except String FileMap
  cloneContent : Task → PackageConfig → FileMap → Except String FileMap
  patchContent : Task → FileMap → Except String FileMap
  editContent : Task → FileMap → Except String FileMap
  evalContent : Task → FileMap → Except String FileMap
  render : FileMap → Except String FileMap
  fetchResources : Option PackageRevisionRef → String → Except String FileMap
  fetchRevisionResources : Option PackageRevisionRef → String → Except String FileMap
  fetchRevisionLock : Option PackageRevisionRef → String → Except String (String × String)
  packageUpdate : FileMap → FileMap → FileMap → Except String FileMap
  updateKptfileUpstream : FileMap → String → String → Except String FileMap
  ensureMergeKey : FileMap → FileMap
  readNodes : FileMap → Except String (List Node × FileMap)
  copyComments : Node → Node → Option Node
  writeNodes : List Node → Except String FileMap
  parseYaml : String → Except String KObject
  toConfigMap : KObject → Except String (List (String × String))
  getKptfile : StoredRevision → Except String Kptfile
  encodeKptfile : Kptfile → Except String String
  diffStrings : String → String → String

/-- The engine's observable effects on its collaborators, recorded as events. -/
inductive Event where
  | draftCreated (viaCreate : Bool)
  | metaCreated (m : MetaRecord)
  | metaUpdated (m : MetaRecord)
  | metaDeleted (name : String) (nspace : String)
  | repoDeleted (name : String)
deriving DecidableEq

/-- Mutable collaborator state threaded through engine calls: the metadata
store contents and the event trace. -/
structure EngineState where
  metaStore : List ((String × String) × MetaRecord)
  events : List Event
deriving DecidableEq

/-- Replace or insert a metadata record keyed by (name, namespace). -/
def setMeta (store : List ((String × String) × MetaRecord)) (key : String × String)
    (m : MetaRecord) : List ((String × String) × MetaRecord) :=
  if (store.find? (fun kv => kv.1 == key)).isSome then
    store.map (fun kv => if kv.1 == key then (key, m) else kv)
  else
    store ++ [(key, m)]

/-- Remove a metadata record keyed by (name, namespace). -/
def removeMeta (store : List ((String × String) × MetaRecord)) (key : String × String) :
    List ((String × String) × MetaRecord) :=
  store.filter (fun kv => kv.1 != key)

/-- metadataStore.Create: insert the record and report the stored value. -/
def metaCreate (st : EngineState) (m : MetaRecord) : EngineState × MetaRecord :=
  ({ metaStore := setMeta st.metaStore (m.name, m.nspace) m,
     events := st.events ++ [Event.metaCreated m] }, m)

/-- metadataStore.Update: update the record in place (the engine discards the
returned value and error at its call sites). -/
def metaUpdate (st : EngineState) (m : MetaRecord) : EngineState :=
  { metaStore := setMeta st.metaStore (m.name, m.nspace) m,
    events := st.events ++ [Event.metaUpdated m] }

/-- metadataStore.Delete: remove the record. -/
def metaDelete (st : EngineState) (key : String × String) : EngineState :=
  { metaStore := removeMeta st.metaStore key,
    events := st.events ++ [Event.metaDeleted key.1 key.2] }

/-- Append an event to the trace. -/
def emitEvent (st : EngineState) (e : Event) : EngineState :=
  { st with events := st.events ++ [e] }

/-! ## Small Go standard-library helpers used by engine.go -/

/-- Go path.Ext: the suffix beginning at the final dot in the final
slash-separated element of the path; empty if there is no dot. -/
def pathExt (p : String) : String :=
  let elemRev := (p.data.reverse).takeWhile (fun c => c ≠ '/')
  match elemRev.findIdx? (fun c => c = '.') with
  | none => ""
  | some i => String.mk ((elemRev.take (i + 1)).reverse)

/-- engine.go isWhitespace: true when every rune of the string is a space. -/
def isWhitespace (s : String) : Bool :=
  s.data.all (fun c => c.isWhitespace)

/-! ## Mutations (engine.go `mutation` interface) -/

/-- The engine's mutation variants.  The structs live in sibling files of the
engine package; the fields kept here are the ones engine.go sets or reads. -/
inductive Mutation where
  | initPackage (name : String) (task : Task)
  | clonePackage (task : Task) (nspace : String) (name : String)
      (isDeployment : Bool) (packageConfig : PackageConfig)
  | updatePackage (cloneTask : Task) (updateTask : Task) (nspace : String) (pkgName : String)
  | patchM (task : Task)
  | editM (task : Task)
  | evalFunction (task : Task)
  | renderPackage
  | replaceResources (newRes : FileMap) (oldRes : FileMap)
deriving DecidableEq

/-- Go type test `lastMutation.(*renderPackageMutation)`. -/
def Mutation.isRender : Mutation → Bool
  | .renderPackage => true
  | _ => false

/-- Whether a mutation is the ReplaceResources variant (its audit task is the
computed diff rather than a fixed task). -/
def Mutation.isReplace : Mutation → Bool
  | .replaceResources _ _ => true
  | _ => false

/-- Modelled from the spec: the audit record of the Render mutation (render
mutation source not under src); section 4.2 makes Render the Eval task with the
reserved image sentinel, and section 8 lists it as the stored "Render" task. -/
def renderAuditTask : Task :=
  { type_ := TaskTypeEval, eval := some { image := "render", configMap := [] } }

/-- The audit task a mutation records on success.  For every variant except
ReplaceResources this is fixed: the in-src Apply of updatePackageMutation
returns its update task, and the spec (section 4.3) has each remaining
mutation record the task it was built from (Render records the Render task). -/
def Mutation.auditTask : Mutation → Task
  | .initPackage _ t => t
  | .clonePackage t _ _ _ _ => t
  | .updatePackage _ u _ _ => u
  | .patchM t => t
  | .editM t => t
  | .evalFunction t => t
  | .renderPackage => renderAuditTask
  | .replaceResources _ _ => { type_ := TaskTypePatch }

/-! ## healConfig and the ReplaceResources mutation (engine.go lines 1034-1139) -/

/-- The body of healConfig's kio filter for a single new node: for every old
node with matching namespace, name, apiVersion and kind, copy comments from
the old node onto it; the error of comments.CopyComments is discarded, so a
failed copy (`none`) leaves the node as it was. -/
def healNode (env : Env) (oldNodes : List Node) (n : Node) : Node :=
  oldNodes.foldl
    (fun cur original =>
      if cur.nspace = original.nspace ∧ cur.name = original.name ∧
          cur.apiVersion = original.apiVersion ∧ cur.kind = original.kind then
        match env.copyComments original cur with
        | some healed => healed
        | none => cur
      else cur)
    n

/-- engine.go healConfig: read the old package into nodes, run the comment-copy
filter over the new package's nodes, write the result back, and re-add the
non-KRM (extra) files. -/
def healConfig (env : Env) (old new : FileMap) : Except String FileMap := do
  let oldRead ←
    match env.readNodes old with
    | .error e => .error ("failed to read old packge resources: " ++ e)
    | .ok r => .ok r
  let oldNodes := oldRead.1
  let newRead ← env.readNodes new
  let newNodes := newRead.1
  let extra := newRead.2
  let healedNodes := newNodes.map (healNode env oldNodes)
  let out ← env.writeNodes healedNodes
  .ok (extra.foldl (fun acc kv => setFM acc kv.1 kv.2) out)

/-- Modelled from the spec: GeneratePatch (engine package, file not under src)
produces the per-file unified-diff PatchSpec for a changed file; the diff body
itself is computed by the external diff library (`env.diffStrings`). -/
def GeneratePatch (env : Env) (file orig new : String) : PatchSpec :=
  { file := file, patchType := PatchTypePatchFile, contents := env.diffStrings orig new }

/-- The first diff loop of mutationReplaceResources.Apply: files present only
in the new set become CreateFile patches, files changed between the sets
become unified-diff patches. -/
def replacePatches1 (env : Env) (old : FileMap) (new : FileMap) : List PatchSpec :=
  new.foldl
    (fun acc kv =>
      match lookupFM old kv.1 with
      | none =>
        acc ++ [{ file := kv.1, patchType := PatchTypeCreateFile, contents := kv.2 }]
      | some oldV =>
        if kv.2 ≠ oldV then acc ++ [GeneratePatch env kv.1 oldV kv.2] else acc)
    []

/-- The second diff loop of mutationReplaceResources.Apply: files present only
in the old set become DeleteFile patches. -/
def replacePatches2 (old : FileMap) (new : FileMap) : List PatchSpec :=
  old.foldl
    (fun acc kv =>
      match lookupFM new kv.1 with
      | none => acc ++ [{ file := kv.1, patchType := PatchTypeDeleteFile, contents := "" }]
      | some _ => acc)
    []

/-- engine.go mutationReplaceResources.Apply: heal the incoming file set, diff
it against the current one into a Patch audit task, and replace the contents. -/
def mutationReplaceResourcesApply (env : Env) (newResources : FileMap)
    (resources : FileMap) : Except String (FileMap × Task) := do
  let old := resources
  let new ←
    match healConfig env old newResources with
    | .error e => .error ("failed to heal resources: " ++ e)
    | .ok r => .ok r
  let patches := replacePatches1 env old new ++ replacePatches2 old new
  let task : Task := { type_ := TaskTypePatch, patch := some { patches := patches } }
  .ok (new, task)

/-! ## The update mutation (engine.go lines 889-977) -/

/-- engine.go updatePackageMutation.currUpstream: the original upstream ref
recorded by the clone task; git and oci upstreams are rejected. -/
def currUpstream (cloneTask : Task) (pkgName : String) :
    Except String (Option PackageRevisionRef) :=
  match cloneTask.clone with
  | none => .error ("package " ++ pkgName ++ " does not have original upstream info")
  | some cspec =>
    if cspec.upstream.type_ = RepositoryTypeGit ∨ cspec.upstream.type_ = RepositoryTypeOci then
      .error ("upstream package must be porch native package. Found it to be " ++
        cspec.upstream.type_)
    else
      .ok cspec.upstream.upstreamRef

/-- engine.go updatePackageMutation.Apply: three-way merge of the local
contents with the original and target upstream file sets, upstream-lock
rewrite, and merge-key pass (whose error is only logged). -/
def updatePackageApply (env : Env) (cloneTask updateTask : Task)
    (nspace pkgName : String) (resources : FileMap) : Except String (FileMap × Task) := do
  let curr ← currUpstream cloneTask pkgName
  match updateTask.update with
  | none => .error ("update not set for task of type " ++ quoteS updateTask.type_)
  | some uspec =>
    if uspec.upstream.type_ = RepositoryTypeGit ∨ uspec.upstream.type_ = RepositoryTypeOci then
      .error "update is not supported for non-porch upstream packages"
    else do
      let originalResources ←
        match env.fetchResources curr nspace with
        | .error _ => .error ("error fetching the resources for package " ++ pkgName)
        | .ok r => .ok r
      let upstreamResources ←
        match env.fetchRevisionResources uspec.upstream.upstreamRef nspace with
        | .error _ => .error "error fetching resources for target upstream"
        | .ok r => .ok r
      let updatedResources ←
        match env.packageUpdate resources originalResources upstreamResources with
        | .error _ => .error "error updating the package to revision"
        | .ok r => .ok r
      let lock ←
        match env.fetchRevisionLock uspec.upstream.upstreamRef nspace with
        | .error _ => .error "error fetching the resources for package revisions"
        | .ok r => .ok r
      let locked ←
        match env.updateKptfileUpstream updatedResources lock.1 lock.2 with
        | .error e => .error ("failed to apply upstream lock to package " ++
            quoteS pkgName ++ ": " ++ e)
        | .ok r => .ok r
      let result := env.ensureMergeKey locked
      .ok (result, updateTask)

/-- Apply one mutation to a file set, producing the new file set and the audit
task.  The variants whose Apply lives outside src (init, clone, patch, edit,
eval, render) are modelled from the spec (section 4.3): an oracle produces the
resulting file set and the audit record is the task the mutation was built
from (the Render task for render). -/
def Mutation.apply (m : Mutation) (env : Env) (resources : FileMap) :
    Except String (FileMap × Task) :=
  match m with
  | .initPackage name task =>
    match env.initContent name task resources with
    | .error e => .error e
    | .ok c => .ok (c, task)
  | .clonePackage task _ _ _ cfg =>
    match env.cloneContent task cfg resources with
    | .error e => .error e
    | .ok c => .ok (c, task)
  | .updatePackage cloneTask updateTask nspace pkgName =>
    updatePackageApply env cloneTask updateTask nspace pkgName resources
  | .patchM task =>
    match env.patchContent task resources with
    | .error e => .error e
    | .ok c => .ok (c, task)
  | .editM task =>
    match env.editContent task resources with
    | .error e => .error e
    | .ok c => .ok (c, task)
  | .evalFunction task =>
    match env.evalContent task resources with
    | .error e => .error e
    | .ok c => .ok (c, task)
  | .renderPackage =>
    match env.render resources with
    | .error e => .error e
    | .ok c => .ok (c, renderAuditTask)
  | .replaceResources newRes _ =>
    mutationReplaceResourcesApply env newRes resources

/-! ## Pure engine helpers (engine.go) -/

/-- engine.go findCloneTask: the first task when it is a Clone task, else nil. -/
def findCloneTask (pr : ApiPackageRevision) : Option Task :=
  match pr.spec.tasks with
  | [] => none
  | firstTask :: _ => if firstTask.type_ = TaskTypeClone then some firstTask else none

/-- engine.go isRecloneAndReplay: both task lists are non-empty, both start
with a Clone task, and those first tasks differ (reflect.DeepEqual). -/
def isRecloneAndReplay (oldObj newObj : ApiPackageRevision) : Bool :=
  match oldObj.spec.tasks, newObj.spec.tasks with
  | [], _ => false
  | _, [] => false
  | o :: _, n :: _ =>
    if o.type_ ≠ TaskTypeClone ∨ n.type_ ≠ TaskTypeClone then false
    else if o = n then false
    else true

/-- engine.go conditionalAddRender: append a render mutation unless the list is
empty or already ends with one. -/
def conditionalAddRender (muts : List Mutation) : List Mutation :=
  match muts.getLast? with
  | none => muts
  | some lastMutation =>
    if lastMutation.isRender then muts else muts ++ [Mutation.renderPackage]

/-- engine.go mapTaskToMutation: exactly one mutation per task; a missing
payload for the declared type is an error; the Eval task with the image
sentinel "render" maps to the render mutation. -/
def mapTaskToMutation (obj : ApiPackageRevision) (task : Task) (isDeployment : Bool)
    (packageConfig : PackageConfig) : Except String Mutation :=
  if task.type_ = TaskTypeInit then
    match task.init with
    | none => .error ("init not set for task of type " ++ quoteS task.type_)
    | some _ => .ok (.initPackage obj.spec.packageName task)
  else if task.type_ = TaskTypeClone then
    match task.clone with
    | none => .error ("clone not set for task of type " ++ quoteS task.type_)
    | some _ => .ok (.clonePackage task obj.nspace obj.spec.packageName isDeployment packageConfig)
  else if task.type_ = TaskTypeUpdate then
    match task.update with
    | none => .error ("update not set for task of type " ++ quoteS task.type_)
    | some _ =>
      match findCloneTask obj with
      | none => .error ("upstream source not found for package rev " ++
          obj.spec.packageName ++ "; only cloned packages can be updated")
      | some cloneTask => .ok (.updatePackage cloneTask task obj.nspace obj.spec.packageName)
  else if task.type_ = TaskTypePatch then
    match task.patch with
    | none => .error ("patch not set for task of type " ++ quoteS task.type_)
    | some _ => .ok (.patchM task)
  else if task.type_ = TaskTypeEdit then
    match task.edit with
    | none => .error ("edit not set for task of type " ++ quoteS task.type_)
    | some _ => .ok (.editM task)
  else if task.type_ = TaskTypeEval then
    match task.eval with
    | none => .error ("eval not set for task of type " ++ quoteS task.type_)
    | some espec =>
      if espec.image = "render" then .ok .renderPackage else .ok (.evalFunction task)
  else
    .error ("task of type " ++ quoteS task.type_ ++ " not supported")

/-- The task loop of applyTasks: one mutation per task, in order
(buildPatchMutation for Patch tasks checks its payload; its file is not under
src, so the check is modelled from the spec inside mapTaskToMutation). -/
def buildMutations (obj : ApiPackageRevision) (isDeployment : Bool)
    (packageConfig : PackageConfig) : List Task → Except String (List Mutation)
  | [] => .ok []
  | t :: ts => do
    let m ← mapTaskToMutation obj t isDeployment packageConfig
    let ms ← buildMutations obj isDeployment packageConfig ts
    .ok (m :: ms)

/-! ## Drafts (repository layer, modelled from the spec) -/

/-- Modelled from the spec: repository.CreatePackageRevision returns a fresh
draft for the desired revision. -/
def repoCreateDraft (obj : ApiPackageRevision) : DraftState :=
  { name := obj.name, nspace := obj.nspace, packageName := obj.spec.packageName,
    revision := obj.spec.revision, baseTasks := [], newTasks := [],
    contents := [], lifecycle := obj.spec.lifecycle }

/-- Modelled from the spec: repository.UpdatePackageRevision returns a draft on
top of an existing revision. -/
def repoUpdateDraft (rev : StoredRevision) : DraftState :=
  { name := rev.name, nspace := rev.nspace, packageName := rev.packageName,
    revision := rev.revision, baseTasks := rev.tasks, newTasks := [],
    contents := rev.contents, lifecycle := rev.lifecycle }

/-- Modelled from the spec: draft.UpdateResources appends a task record plus
its resulting file set. -/
def draftUpdateResources (d : DraftState) (files : FileMap) (t : Task) : DraftState :=
  { d with contents := files, newTasks := d.newTasks ++ [t] }

/-- Modelled from the spec: draft.UpdateLifecycle. -/
def draftUpdateLifecycle (d : DraftState) (l : String) : DraftState :=
  { d with lifecycle := l }

/-- Modelled from the spec: draft.Close finalises the draft to a stored
revision whose task list is the base tasks followed by the recorded ones. -/
def draftClose (d : DraftState) : StoredRevision :=
  { name := d.name, nspace := d.nspace, packageName := d.packageName,
    revision := d.revision, lifecycle := d.lifecycle,
    tasks := d.baseTasks ++ d.newTasks, contents := d.contents,
    labels := [], annotations := [] }

/-- engine.go applyResourceMutations: serially apply each mutation and record
its result and audit task in the draft. -/
def applyResourceMutations (env : Env) (draft : DraftState) (baseResources : FileMap) :
    List Mutation → Except String DraftState
  | [] => .ok draft
  | m :: rest => do
    let out ← m.apply env baseResources
    applyResourceMutations env (draftUpdateResources draft out.1 out.2) out.1 rest

/-- The Init task the engine silently prepends (engine.go lines 313-321; its
Type field is left unset). -/
def autoInitTask (name : String) : Task :=
  { type_ := "",
    init := some { subpackage := "", description := name ++ " description" } }

/-- The (zero- or one-element) auto-prepended Init task list of applyTasks:
present unless the first task is Init or Clone (engine.go line 312). -/
def autoInitList (obj : ApiPackageRevision) : List Task :=
  match obj.spec.tasks with
  | [] => [autoInitTask obj.spec.packageName]
  | t :: _ =>
    if t.type_ ≠ TaskTypeInit ∧ t.type_ ≠ TaskTypeClone then
      [autoInitTask obj.spec.packageName]
    else []

/-- engine.go applyTasks: prepend an Init mutation unless the first task is
Init or Clone, map each task to its mutation, conditionally append a render
mutation, and run the chain from an empty base. -/
def applyTasks (env : Env) (draft : DraftState) (repositoryObj : Repository)
    (obj : ApiPackageRevision) (packageConfig : PackageConfig) : Except String DraftState := do
  let initMutations : List Mutation :=
    (autoInitList obj).map (fun t => .initPackage obj.spec.packageName t)
  let taskMutations ← buildMutations obj repositoryObj.deployment packageConfig obj.spec.tasks
  let mutations := conditionalAddRender (initMutations ++ taskMutations)
  applyResourceMutations env draft [] mutations

/-! ## Context extraction (engine.go lines 1186-1244) -/

/-- Whether a (lower-cased) extension is parsed by ExtractContextConfigMap. -/
def isYamlExt (ext : String) : Bool :=
  ext == ".yaml" || ext == ".yml"

/-- Whether an object is a context ConfigMap: empty group, ConfigMap kind, and
the reserved name. -/
def isContextConfigMap (o : KObject) : Bool :=
  o.group == "" && o.kind == "ConfigMap" && o.name == PkgContextName

/-- The per-file document loop of ExtractContextConfigMap: skip whitespace-only
documents, parse the rest, and keep the context ConfigMaps. -/
def extractFromDocs (env : Env) (itemPath : String) :
    List String → Except String (List KObject)
  | [] => .ok []
  | s :: rest =>
    if isWhitespace s then extractFromDocs env itemPath rest
    else
      match env.parseYaml s with
      | .error _ => .error ("error parsing yaml from " ++ itemPath)
      | .ok o => do
        let more ← extractFromDocs env itemPath rest
        .ok ((if isContextConfigMap o then [o] else []) ++ more)

/-- The per-file loop of ExtractContextConfigMap: non-yaml files (extension
other than .yaml/.yml, case-insensitive) are skipped with a warning; yaml
files are split on the document separator and scanned for matches. -/
def extractMatches (env : Env) : FileMap → Except String (List KObject)
  | [] => .ok []
  | (itemPath, itemContents) :: rest =>
    if isYamlExt ((pathExt itemPath).toLower) then do
      let here ← extractFromDocs env itemPath (itemContents.splitOn "\n---\n")
      let more ← extractMatches env rest
      .ok (here ++ more)
    else extractMatches env rest

/-- engine.go ExtractContextConfigMap: zero matches is nil, one match is
returned, two or more is a conflict error. -/
def ExtractContextConfigMap (env : Env) (resources : FileMap) :
    Except String (Option KObject) := do
  let found ← extractMatches env resources
  match found with
  | [] => .ok none
  | [m] => .ok (some m)
  | _ => .error ("found multiple configmaps matching name " ++ quoteS PkgContextFile)

/-! ## Projections (engine.go PackageRevision methods, lines 84-115) -/

/-- Modelled from the spec: the repository-level API projection of a stored
revision (repository.PackageRevision.GetPackageRevision). -/
def StoredRevision.toApi (r : StoredRevision) : ApiPackageRevision :=
  { name := r.name, nspace := r.nspace, labels := r.labels,
    annotations := r.annotations,
    spec := { packageName := r.packageName, revision := r.revision,
              lifecycle := r.lifecycle, tasks := r.tasks, readinessGates := [] },
    conditions := [] }

/-- engine.go PackageRevision.GetPackageRevision: the repository projection
with labels and annotations replaced by the metadata record, re-adding the
synthetic latest-revision label when the repository flagged it. -/
def EnginePackageRevision.getApi (p : EnginePackageRevision) : ApiPackageRevision :=
  let repoPkgRev := p.repoRev.toApi
  let isLatest :=
    lookupFM repoPkgRev.labels LatestPackageRevisionKey = some LatestPackageRevisionValue
  let labels :=
    if isLatest then
      setFM p.revMeta.labels LatestPackageRevisionKey LatestPackageRevisionValue
    else p.revMeta.labels
  { repoPkgRev with labels := labels, annotations := p.revMeta.annotations }

/-! ## Package config (engine.go buildPackageConfig, lines 202-244) -/

/-- engine.go buildPackageConfig: the package path is the ancestor path (taken
from the parent's context ConfigMap, when present) joined with the parent
package name and the new revision's package name. -/
def buildPackageConfig (env : Env) (obj : ApiPackageRevision)
    (parent : Option EnginePackageRevision) : Except String PackageConfig := do
  let parentPath ←
    match parent with
    | none => .ok ""
    | some p => do
      let parentObj := p.getApi
      let parentPath0 := parentObj.spec.packageName
      let resources := p.repoRev.contents
      let configMapObj ←
        match ExtractContextConfigMap env resources with
        | .error e => .error ("error getting configuration from parent package " ++
            quoteS parentObj.name ++ ": " ++ e)
        | .ok r => .ok r
      match configMapObj with
      | none => .ok parentPath0
      | some cm => do
        let data ←
          match env.toConfigMap cm with
          | .error e => .error ("error parsing ConfigMap from parent configuration: " ++ e)
          | .ok d => .ok d
        match lookupFM data ConfigKeyPackagePath with
        | some s => if s ≠ "" then .ok (s ++ "/" ++ parentPath0) else .ok parentPath0
        | none => .ok parentPath0
  if parentPath = "" then .ok { packagePath := obj.spec.packageName }
  else .ok { packagePath := parentPath ++ "/" ++ obj.spec.packageName }

/-! ## Kptfile patch task (engine.go createKptfilePatchTask, lines 585-672) -/

/-- engine.go convertStatusToKptfile; the Go function panics on an unknown
condition status, modelled as an error result. -/
def convertStatusToKptfile (s : String) : Except String String :=
  if s = "True" then .ok "True"
  else if s = "False" then .ok "False"
  else if s = "Unknown" then .ok "Unknown"
  else .error ("unknown condition status: " ++ s)

/-- Convert the API conditions of the desired revision to Kptfile conditions. -/
def convertConditions : List KCondition → Except String (List KCondition)
  | [] => .ok []
  | c :: cs => do
    let s ← convertStatusToKptfile c.status
    let rest ← convertConditions cs
    .ok ({ type_ := c.type_, status := s, reason := c.reason, message := c.message } :: rest)

/-- engine.go createKptfilePatchTask: re-encode the stored Kptfile with the
desired readiness gates and conditions projected in, diff the two encodings,
and wrap a non-empty diff into a Patch task. -/
def createKptfilePatchTask (env : Env) (oldPackage : StoredRevision)
    (newObj : ApiPackageRevision) : Except String (Option Task) := do
  let kf ← env.getKptfile oldPackage
  let orgKfString ← env.encodeKptfile kf
  let readinessGates := newObj.spec.readinessGates
  let conditions ← convertConditions newObj.conditions
  let kf1 :=
    if readinessGates.length > 0 then
      { kf with info := some { readinessGates := readinessGates } }
    else kf
  let kf2 :=
    if conditions.length > 0 then
      { kf1 with status := some { conditions := conditions } }
    else kf1
  let newKfString ← env.encodeKptfile kf2
  let patchSpec := GeneratePatch env KptFileName orgKfString newKfString
  if patchSpec.contents = "" then .ok none
  else
    .ok (some { type_ := TaskTypePatch, patch := some { patches := [patchSpec] } })

/-- Modelled from the spec: buildPatchMutation (task file not under src) checks
the Patch payload and yields the patch mutation. -/
def buildPatchMutation (task : Task) : Except String Mutation :=
  match task.patch with
  | none => .error ("patch not set for task of type " ++ quoteS task.type_)
  | some _ => .ok (.patchM task)

/-! ## Engine operations (engine.go cadEngine methods) -/

/-- The desired revision with an unset lifecycle defaulted to Draft
(engine.go lines 256-259 mutate obj in place). -/
def effectiveCreateObj (obj : ApiPackageRevision) : ApiPackageRevision :=
  if obj.spec.lifecycle = "" then
    { obj with spec := { obj.spec with lifecycle := LifecycleDraft } }
  else obj

/-- engine.go CreatePackageRevision (lines 246-305): build the package config,
validate the desired lifecycle (empty defaults to Draft, Published is a
validation error, anything else is unsupported), create a draft, apply the
tasks, set the lifecycle, close, and register the metadata record. -/
def CreatePackageRevision (env : Env) (st : EngineState) (repositoryObj : Repository)
    (obj : ApiPackageRevision) (parent : Option EnginePackageRevision) :
    EngineState × Except String EnginePackageRevision :=
  match buildPackageConfig env obj parent with
  | .error e => (st, .error e)
  | .ok packageConfig =>
    if obj.spec.lifecycle = LifecyclePublished then
      (st, .error "cannot create a package revision with lifecycle value 'Final'")
    else if obj.spec.lifecycle ≠ "" ∧ obj.spec.lifecycle ≠ LifecycleDraft ∧
        obj.spec.lifecycle ≠ LifecycleProposed then
      (st, .error ("unsupported lifecycle value: " ++ obj.spec.lifecycle))
    else
      let objE := effectiveCreateObj obj
      match env.openRepo repositoryObj with
      | .error e => (st, .error e)
      | .ok _ =>
        let st := emitEvent st (.draftCreated true)
        let draft := repoCreateDraft objE
        match applyTasks env draft repositoryObj objE packageConfig with
        | .error e => (st, .error e)
        | .ok draft1 =>
          let draft2 := draftUpdateLifecycle draft1 objE.spec.lifecycle
          let repoPkgRev := draftClose draft2
          let pkgRevMeta : MetaRecord :=
            { name := repoPkgRev.name, nspace := repoPkgRev.nspace,
              labels := obj.labels, annotations := obj.annotations }
          let createRes := metaCreate st pkgRevMeta
          (createRes.1, .ok { repoRev := repoPkgRev, revMeta := createRes.2 })

/-- engine.go recloneAndReplay (lines 1163-1183): create a brand-new draft for
the desired revision, replay its task list from scratch, set the lifecycle and
close. -/
def recloneAndReplay (env : Env) (repositoryObj : Repository)
    (newObj : ApiPackageRevision) (packageConfig : PackageConfig) :
    Except String StoredRevision := do
  let draft := repoCreateDraft newObj
  let draft1 ← applyTasks env draft repositoryObj newObj packageConfig
  let draft2 := draftUpdateLifecycle draft1 newObj.spec.lifecycle
  .ok (draftClose draft2)

/-- The shared-index type check of the append-update path: Go loops over the
old task indices (the new list is at least as long at this point). -/
def taskTypeMismatch (oldTasks newTasks : List Task) : Bool :=
  (oldTasks.zip newTasks).any (fun p => p.1.type_ != p.2.type_)

/-- engine.go UpdatePackageRevision (lines 427-583).  Published old revisions
take the metadata-only path; Draft and Proposed proceed; anything else is
invalid.  A reclone-and-replay update builds a fresh revision; otherwise the
append-update path validates the task lists, optionally appends an update
mutation and a Kptfile patch mutation, applies content mutations only when the
old revision is a Draft, and updates the metadata record. -/
def UpdatePackageRevision (env : Env) (st : EngineState) (repositoryObj : Repository)
    (oldPackage : EnginePackageRevision) (oldObj newObj : ApiPackageRevision)
    (parent : Option EnginePackageRevision) :
    EngineState × Except String EnginePackageRevision :=
  match env.openRepo repositoryObj with
  | .error e => (st, .error e)
  | .ok _ =>
    if oldObj.spec.lifecycle = LifecycleDraft ∨ oldObj.spec.lifecycle = LifecycleProposed then
      if newObj.spec.lifecycle = LifecycleDraft ∨ newObj.spec.lifecycle = LifecycleProposed ∨
          newObj.spec.lifecycle = LifecyclePublished then
        if isRecloneAndReplay oldObj newObj then
          match buildPackageConfig env newObj parent with
          | .error e => (st, .error e)
          | .ok packageConfig =>
            let st := emitEvent st (.draftCreated true)
            match recloneAndReplay env repositoryObj newObj packageConfig with
            | .error e => (st, .error e)
            | .ok repoPkgRev =>
              (st, .ok { repoRev := repoPkgRev, revMeta := emptyMeta })
        else
          if newObj.spec.tasks.length < oldObj.spec.tasks.length then
            (st, .error "removing tasks is not yet supported")
          else if taskTypeMismatch oldObj.spec.tasks newObj.spec.tasks then
            (st, .error "changing task types is not yet supported")
          else
            let appended : Except String (List Mutation) :=
              if oldObj.spec.tasks.length < newObj.spec.tasks.length then
                if oldObj.spec.tasks.length + 1 < newObj.spec.tasks.length then
                  .error "can only append one task at a time"
                else
                  match newObj.spec.tasks.getLast? with
                  | none => .ok []
                  | some newTask =>
                    if newTask.type_ ≠ TaskTypeUpdate then
                      .error ("appended task is type " ++ quoteS newTask.type_ ++
                        ", must be type " ++ quoteS TaskTypeUpdate)
                    else
                      match newTask.update with
                      | none => .error ("update not set for updateTask of type " ++
                          quoteS newTask.type_)
                      | some _ =>
                        match findCloneTask oldObj with
                        | none => .error ("upstream source not found for package rev " ++
                            oldObj.spec.packageName ++ "; only cloned packages can be updated")
                        | some cloneTask =>
                          .ok [.updatePackage cloneTask newTask repositoryObj.nspace oldObj.name]
              else .ok []
            match appended with
            | .error e => (st, .error e)
            | .ok mutations0 =>
              let mutations1 := conditionalAddRender mutations0
              let st := emitEvent st (.draftCreated false)
              let draft := repoUpdateDraft oldPackage.repoRev
              match createKptfilePatchTask env oldPackage.repoRev newObj with
              | .error e => (st, .error e)
              | .ok kfPatchTask =>
                let buildPatch : Except String (List Mutation) :=
                  match kfPatchTask with
                  | none => .ok mutations1
                  | some t =>
                    match buildPatchMutation t with
                    | .error e => .error e
                    | .ok m => .ok (mutations1 ++ [m])
                match buildPatch with
                | .error e => (st, .error e)
                | .ok mutations2 =>
                  let mutations3 := conditionalAddRender mutations2
                  let applied : Except String DraftState :=
                    if oldObj.spec.lifecycle = LifecycleDraft then
                      applyResourceMutations env draft oldPackage.repoRev.contents mutations3
                    else .ok draft
                  match applied with
                  | .error e => (st, .error e)
                  | .ok draft1 =>
                    let draft2 := draftUpdateLifecycle draft1 newObj.spec.lifecycle
                    let repoPkgRev := draftClose draft2
                    let pkgRevMeta : MetaRecord :=
                      { name := repoPkgRev.name, nspace := repoPkgRev.nspace,
                        labels := newObj.labels, annotations := newObj.annotations }
                    let st := metaUpdate st pkgRevMeta
                    (st, .ok { repoRev := repoPkgRev, revMeta := pkgRevMeta })
      else
        (st, .error ("invalid desired lifecycle value: " ++ quoteS newObj.spec.lifecycle))
    else if oldObj.spec.lifecycle = LifecyclePublished then
      let repoPkgRev := oldPackage.repoRev
      let pkgRevMeta : MetaRecord :=
        { name := repoPkgRev.name, nspace := repoPkgRev.nspace,
          labels := newObj.labels, annotations := newObj.annotations }
      let st := metaUpdate st pkgRevMeta
      (st, .ok { repoRev := repoPkgRev, revMeta := pkgRevMeta })
    else
      (st, .error ("invalid original lifecycle value: " ++ quoteS oldObj.spec.lifecycle))

/-- engine.go DeletePackageRevision (lines 693-715): delete the repository
revision, then its metadata record. -/
def DeletePackageRevision (env : Env) (st : EngineState) (repositoryObj : Repository)
    (oldPackage : EnginePackageRevision) : EngineState × Except String Unit :=
  match env.openRepo repositoryObj with
  | .error e => (st, .error e)
  | .ok _ =>
    match env.deleteRevision oldPackage.repoRev with
    | .error e => (st, .error e)
    | .ok _ =>
      let st := emitEvent st (.repoDeleted oldPackage.repoRev.name)
      let st := metaDelete st (oldPackage.repoRev.name, oldPackage.repoRev.nspace)
      (st, .ok ())

/-- engine.go UpdatePackageResources (lines 783-844): whole-file replacement,
only valid on a Draft; runs the replace mutation followed by a render mutation
and closes without a lifecycle change (and without touching metadata). -/
def UpdatePackageResources (env : Env) (st : EngineState) (repositoryObj : Repository)
    (oldPackage : EnginePackageRevision) (newRes : FileMap) :
    EngineState × Except String EnginePackageRevision :=
  let rev := oldPackage.repoRev.toApi
  if rev.spec.lifecycle = LifecycleDraft then
    match env.openRepo repositoryObj with
    | .error e => (st, .error e)
    | .ok _ =>
      let st := emitEvent st (.draftCreated false)
      let draft := repoUpdateDraft oldPackage.repoRev
      let mutations : List Mutation :=
        [.replaceResources newRes oldPackage.repoRev.contents, .renderPackage]
      match applyResourceMutations env draft oldPackage.repoRev.contents mutations with
      | .error e => (st, .error e)
      | .ok draft1 =>
        let repoPkgRev := draftClose draft1
        (st, .ok { repoRev := repoPkgRev, revMeta := emptyMeta })
  else if rev.spec.lifecycle = LifecycleProposed ∨ rev.spec.lifecycle = LifecyclePublished then
    (st, .error ("cannot update a package revision with lifecycle value " ++
      quoteS rev.spec.lifecycle ++ "; package must be Draft"))
  else
    (st, .error ("invalid original lifecycle value: " ++ quoteS rev.spec.lifecycle))

/-! ## Concrete fixtures used by witnesses -/

/-- A trivial oracle environment in which every external call succeeds. -/
def envW : Env :=
  { openRepo := fun _ => .ok (),
    deleteRevision := fun _ => .ok (),
    initContent := fun _ _ _ => .ok [("Kptfile", "init")],
    cloneContent := fun _ _ _ => .ok [("Kptfile", "cloned")],
    patchContent := fun _ r => .ok r,
    editContent := fun _ r => .ok r,
    evalContent := fun _ r => .ok r,
    render := fun r => .ok r,
    fetchResources := fun _ _ => .ok [],
    fetchRevisionResources := fun _ _ => .ok [],
    fetchRevisionLock := fun _ _ => .ok ("up", "lock"),
    packageUpdate := fun a _ _ => .ok a,
    updateKptfileUpstream := fun a _ _ => .ok a,
    ensureMergeKey := fun a => a,
    readNodes := fun m => .ok ([], m),
    copyComments := fun _ n => some n,
    writeNodes := fun _ => .ok [],
    parseYaml := fun _ =>
      .ok { group := "", kind := "ConfigMap", name := PkgContextName, data := [] },
    toConfigMap := fun o => .ok o.data,
    getKptfile := fun _ => .ok { info := none, status := none },
    encodeKptfile := fun _ => .ok "kf",
    diffStrings := fun a b => if a = b then "" else "@@diff@@" }

/-- A clone task pointing at upstream revision base-v1. -/
def taskCloneA : Task :=
  { type_ := TaskTypeClone,
    clone := some { upstream := { type_ := "", git := none, oci := none,
                                  upstreamRef := some { name := "base-v1" } },
                    strategy := "" } }

/-- A clone task pointing at upstream revision base-v2 (differs from taskCloneA). -/
def taskCloneB : Task :=
  { type_ := TaskTypeClone,
    clone := some { upstream := { type_ := "", git := none, oci := none,
                                  upstreamRef := some { name := "base-v2" } },
                    strategy := "" } }

/-- An update task pointing at upstream revision base-v2. -/
def taskUpdateW : Task :=
  { type_ := TaskTypeUpdate,
    update := some { upstream := { type_ := "", git := none, oci := none,
                                   upstreamRef := some { name := "base-v2" } } } }

/-- A concrete repository spec. -/
def repoW : Repository := { name := "repo", nspace := "ns", deployment := false }

/-- A concrete stored revision for update fixtures. -/
def storedW : StoredRevision :=
  { name := "pkg-old", nspace := "ns", packageName := "net", revision := "v1",
    lifecycle := LifecycleDraft, tasks := [taskCloneA], contents := [],
    labels := [], annotations := [] }

/-- The metadata record for the fixture revision. -/
def metaW : MetaRecord := { name := "pkg-old", nspace := "ns", labels := [("a", "1")], annotations := [] }

/-- The fixture engine revision aggregating storedW and metaW. -/
def oldPackageW : EnginePackageRevision := { repoRev := storedW, revMeta := metaW }

/-- The old desired-revision object for update fixtures. -/
def oldObjW : ApiPackageRevision :=
  { name := "pkg-old", nspace := "ns", labels := [("a", "1")], annotations := [],
    spec := { packageName := "net", revision := "v1", lifecycle := LifecycleDraft,
              tasks := [taskCloneA], readinessGates := [] },
    conditions := [] }

/-- The new desired-revision object with a changed clone task (reclone trigger). -/
def newObjW : ApiPackageRevision :=
  { name := "pkg-old", nspace := "ns", labels := [("b", "2")], annotations := [],
    spec := { packageName := "net", revision := "v1", lifecycle := LifecycleDraft,
              tasks := [taskCloneB], readinessGates := [] },
    conditions := [] }

/-- A starting collaborator state containing the fixture metadata record. -/
def st0 : EngineState := { metaStore := [(("pkg-old", "ns"), metaW)], events := [] }

/-! ## Helper lemmas -/

/-- A task that mapTaskToMutation turns into the render mutation. -/
def isRenderSentinel (t : Task) : Bool :=
  t.type_ == TaskTypeEval &&
    (match t.eval with
     | some espec => espec.image == "render"
     | none => false)

/-- On success, every mutation other than ReplaceResources records its fixed
audit task. -/
theorem apply_auditTask {m : Mutation} {env : Env} {base : FileMap}
    {out : FileMap × Task} (hrep : m.isReplace = false)
    (h : m.apply env base = .ok out) : out.2 = m.auditTask := by
  cases m <;> simp only [Mutation.apply, Mutation.auditTask] at *
  case initPackage name task =>
    cases hc : env.initContent name task base <;> rw [hc] at h <;> cases h; rfl
  case clonePackage task nspace name dep cfg =>
    cases hc : env.cloneContent task cfg base <;> rw [hc] at h <;> cases h; rfl
  case updatePackage cloneTask updateTask nspace pkgName =>
    simp only [updatePackageApply, bind, Except.bind] at h
    repeat' split at h
    all_goals first
      | exact Except.noConfusion h
      | (cases h; rfl)
  case patchM task =>
    cases hc : env.patchContent task base <;> rw [hc] at h <;> cases h; rfl
  case editM task =>
    cases hc : env.editContent task base <;> rw [hc] at h <;> cases h; rfl
  case evalFunction task =>
    cases hc : env.evalContent task base <;> rw [hc] at h <;> cases h; rfl
  case renderPackage =>
    cases hc : env.render base <;> rw [hc] at h <;> cases h; rfl
  case replaceResources a b => cases hrep

/-- applyResourceMutations never changes the base tasks of the draft. -/
theorem applyResourceMutations_baseTasks {env : Env} :
    ∀ (muts : List Mutation) (draft : DraftState) (base : FileMap) (d : DraftState),
    applyResourceMutations env draft base muts = .ok d →
    d.baseTasks = draft.baseTasks := by
  intro muts
  induction muts with
  | nil =>
    intro draft base d h
    simp only [applyResourceMutations] at h
    cases h; rfl
  | cons m rest ih =>
    intro draft base d h
    simp only [applyResourceMutations, bind, Except.bind] at h
    cases happ : m.apply env base <;> rw [happ] at h
    · cases h
    · rename_i out
      exact ih (draftUpdateResources draft out.1 out.2) out.1 d h

/-- On success the recorded audit tasks of a mutation chain are the fixed
audit tasks, in order. -/
theorem applyResourceMutations_newTasks {env : Env} :
    ∀ (muts : List Mutation) (draft : DraftState) (base : FileMap) (d : DraftState),
    (∀ m ∈ muts, m.isReplace = false) →
    applyResourceMutations env draft base muts = .ok d →
    d.newTasks = draft.newTasks ++ muts.map Mutation.auditTask := by
  intro muts
  induction muts with
  | nil =>
    intro draft base d _ h
    simp only [applyResourceMutations] at h
    cases h; simp
  | cons m rest ih =>
    intro draft base d hrep h
    simp only [applyResourceMutations, bind, Except.bind] at h
    cases happ : m.apply env base <;> rw [happ] at h
    · cases h
    · rename_i out
      have h2 := ih (draftUpdateResources draft out.1 out.2) out.1 d
        (fun x hx => hrep x (List.mem_cons_of_mem _ hx)) h
      have haud := apply_auditTask (hrep m (List.mem_cons_self m rest)) happ
      simp only [draftUpdateResources] at h2
      simp [h2, haud]

/-- mapTaskToMutation on a non-render-sentinel task yields a mutation whose
audit task is that task and which is neither a render nor a replace mutation. -/
theorem mapTaskToMutation_audit {obj : ApiPackageRevision} {t : Task} {dep : Bool}
    {cfg : PackageConfig} {m : Mutation}
    (hs : isRenderSentinel t = false)
    (h : mapTaskToMutation obj t dep cfg = .ok m) :
    m.auditTask = t ∧ m.isReplace = false ∧ m.isRender = false := by
  simp only [mapTaskToMutation] at h
  repeat' split at h
  all_goals first
    | exact Except.noConfusion h
    | (cases h; exact ⟨rfl, rfl, rfl⟩)
    | (cases h; simp_all [isRenderSentinel, Mutation.auditTask])

/-- buildMutations on a non-sentinel task list reproduces the task list as its
audit tasks, yielding no render and no replace mutations. -/
theorem buildMutations_audit {obj : ApiPackageRevision} {dep : Bool} {cfg : PackageConfig} :
    ∀ {ts : List Task} {ms : List Mutation},
    (∀ t ∈ ts, isRenderSentinel t = false) →
    buildMutations obj dep cfg ts = .ok ms →
    ms.map Mutation.auditTask = ts ∧
      (∀ m ∈ ms, m.isReplace = false ∧ m.isRender = false) := by
  intro ts
  induction ts with
  | nil =>
    intro ms _ h
    simp only [buildMutations] at h
    cases h; simp
  | cons t rest ih =>
    intro ms hs h
    simp only [buildMutations, bind, Except.bind] at h
    cases hm : mapTaskToMutation obj t dep cfg <;> rw [hm] at h
    · cases h
    · rename_i m0
      cases hr : buildMutations obj dep cfg rest <;> rw [hr] at h
      · cases h
      · rename_i ms0
        cases h
        have h0 := mapTaskToMutation_audit (hs t (List.mem_cons_self t rest)) hm
        have h1 := ih (fun x hx => hs x (List.mem_cons_of_mem _ hx)) hr
        refine ⟨by simp [h0.1, h1.1], ?_⟩
        intro m hmem
        rcases List.mem_cons.mp hmem with hl | hr2
        · subst hl; exact ⟨h0.2.1, h0.2.2⟩
        · exact h1.2 m hr2

/-- conditionalAddRender appends exactly one render mutation when the chain
does not already end with one. -/
theorem conditionalAddRender_append {l : List Mutation} {m : Mutation}
    (hl : l.getLast? = some m) (hm : m.isRender = false) :
    conditionalAddRender l = l ++ [Mutation.renderPackage] := by
  simp [conditionalAddRender, hl, hm]

/-- conditionalAddRender leaves a chain that already ends with a render alone. -/
theorem conditionalAddRender_render {l : List Mutation} {m : Mutation}
    (hl : l.getLast? = some m) (hm : m.isRender = true) :
    conditionalAddRender l = l := by
  simp [conditionalAddRender, hl, hm]

/-- applyTasks never changes the base tasks of the draft. -/
theorem applyTasks_baseTasks {env : Env} {draft : DraftState} {repositoryObj : Repository}
    {obj : ApiPackageRevision} {cfg : PackageConfig} {d : DraftState}
    (h : applyTasks env draft repositoryObj obj cfg = .ok d) :
    d.baseTasks = draft.baseTasks := by
  simp only [applyTasks, bind, Except.bind] at h
  cases hb : buildMutations obj repositoryObj.deployment cfg obj.spec.tasks <;>
    simp only [hb] at h
  · exact Except.noConfusion h
  · exact applyResourceMutations_baseTasks _ _ _ _ h

/-- On success, applyTasks records the auto-prepended Init task (when due),
then the input tasks, then the auto-appended Render task. -/
theorem applyTasks_newTasks {env : Env} {draft : DraftState} {repositoryObj : Repository}
    {obj : ApiPackageRevision} {cfg : PackageConfig} {d : DraftState}
    (hs : ∀ t ∈ obj.spec.tasks, isRenderSentinel t = false)
    (h : applyTasks env draft repositoryObj obj cfg = .ok d) :
    d.newTasks = draft.newTasks ++ autoInitList obj ++ obj.spec.tasks ++ [renderAuditTask] := by
  simp only [applyTasks, bind, Except.bind] at h
  cases hb : buildMutations obj repositoryObj.deployment cfg obj.spec.tasks <;>
    simp only [hb] at h
  · exact Except.noConfusion h
  · rename_i ms
    obtain ⟨haud, hprops⟩ := buildMutations_audit hs hb
    have hcar : conditionalAddRender
          ((autoInitList obj).map (fun t => Mutation.initPackage obj.spec.packageName t) ++ ms) =
        ((autoInitList obj).map (fun t => Mutation.initPackage obj.spec.packageName t) ++ ms)
          ++ [Mutation.renderPackage] := by
      cases hms : ms with
      | nil =>
        have htasks : obj.spec.tasks = [] := by
          rw [hms] at haud; simpa using haud.symm
        apply conditionalAddRender_append
          (m := Mutation.initPackage obj.spec.packageName (autoInitTask obj.spec.packageName))
        · simp [autoInitList, htasks]
        · rfl
      | cons m0 rest =>
        have hne : (m0 :: rest).getLast? ≠ none := by
          simp only [ne_eq, List.getLast?_eq_none_iff]; simp
        cases hlast : (m0 :: rest).getLast? with
        | none => exact absurd hlast hne
        | some mlast =>
          apply conditionalAddRender_append (m := mlast)
          · rw [List.getLast?_append, hlast]; rfl
          · exact (hprops mlast (by rw [hms]; exact List.mem_of_mem_getLast? hlast)).2
    rw [hcar] at h
    have hrep : ∀ m ∈ ((autoInitList obj).map
          (fun t => Mutation.initPackage obj.spec.packageName t) ++ ms)
          ++ [Mutation.renderPackage], m.isReplace = false := by
      intro m hm
      rcases List.mem_append.mp hm with hm1 | hm2
      · rcases List.mem_append.mp hm1 with hm3 | hm4
        · obtain ⟨t, _, ht⟩ := List.mem_map.mp hm3
          rw [← ht]; rfl
        · exact (hprops m hm4).1
      · simp only [List.mem_singleton] at hm2; rw [hm2]; rfl
    have := applyResourceMutations_newTasks _ draft [] d hrep h
    simp only [List.map_append, List.map_map] at this
    rw [this, haud]
    have hmapinit : (autoInitList obj).map
        (Mutation.auditTask ∘ fun t => Mutation.initPackage obj.spec.packageName t) =
        autoInitList obj := by
      apply List.map_congr_left ?_ |>.trans (List.map_id _)
      intro t _; rfl
    rw [hmapinit]
    simp [Mutation.auditTask]

/-- The metadata record the engine writes on the published-only update path
and on the append-update path. -/
def newObjMeta (rev : StoredRevision) (newObj : ApiPackageRevision) : MetaRecord :=
  { name := rev.name, nspace := rev.nspace,
    labels := newObj.labels, annotations := newObj.annotations }

/-- The published-only path of UpdatePackageRevision, fully characterised. -/
theorem update_published_path {env : Env} {st : EngineState} {repositoryObj : Repository}
    {oldPackage : EnginePackageRevision} {oldObj newObj : ApiPackageRevision}
    {parent : Option EnginePackageRevision}
    (hopen : env.openRepo repositoryObj = .ok ())
    (hpub : oldObj.spec.lifecycle = LifecyclePublished) :
    UpdatePackageRevision env st repositoryObj oldPackage oldObj newObj parent =
      (metaUpdate st (newObjMeta oldPackage.repoRev newObj),
       .ok { repoRev := oldPackage.repoRev,
             revMeta := newObjMeta oldPackage.repoRev newObj }) := by
  simp only [UpdatePackageRevision, hopen, hpub]
  rw [if_neg (by decide), if_pos trivial]
  rfl

/-! ## Claim theorems -/

/-- C5: for any mutation list M built during CreatePackageRevision, the
executed chain (conditionalAddRender M, engine.go line 334) is M followed by
exactly one appended Render mutation, unless M is empty or M already ends with
a Render mutation, in which case nothing is appended. -/
theorem claim_C5_render_idempotence (M : List Mutation) :
    (M = [] → conditionalAddRender M = M) ∧
    (∀ m, M.getLast? = some m → m.isRender = true → conditionalAddRender M = M) ∧
    (∀ m, M.getLast? = some m → m.isRender = false →
      conditionalAddRender M = M ++ [Mutation.renderPackage]) := by
  refine ⟨?_, ?_, ?_⟩
  · intro h; rw [h]; rfl
  · intro m hl hm; exact conditionalAddRender_render hl hm
  · intro m hl hm; exact conditionalAddRender_append hl hm

/-- Witness for C5 at a concrete one-mutation chain not ending in Render. -/
theorem claim_C5_witness :
    conditionalAddRender [Mutation.patchM taskUpdateW] =
      [Mutation.patchM taskUpdateW, Mutation.renderPackage] :=
  (claim_C5_render_idempotence [Mutation.patchM taskUpdateW]).2.2 _ rfl rfl

/-- C1: when the old revision's lifecycle is Published, UpdatePackageRevision
updates only the labels and annotations in the metadata store, emits no draft
event (so file content and task list stay untouched), and returns the old
repository revision handle unchanged together with the new metadata record. -/
theorem claim_C1_published_frame {env : Env} {st : EngineState} {repositoryObj : Repository}
    {oldPackage : EnginePackageRevision} {oldObj newObj : ApiPackageRevision}
    {parent : Option EnginePackageRevision}
    (hopen : env.openRepo repositoryObj = .ok ())
    (hpub : oldObj.spec.lifecycle = LifecyclePublished) :
    UpdatePackageRevision env st repositoryObj oldPackage oldObj newObj parent =
      (metaUpdate st (newObjMeta oldPackage.repoRev newObj),
       .ok { repoRev := oldPackage.repoRev,
             revMeta := newObjMeta oldPackage.repoRev newObj }) ∧
    (metaUpdate st (newObjMeta oldPackage.repoRev newObj)).events =
      st.events ++ [Event.metaUpdated (newObjMeta oldPackage.repoRev newObj)] ∧
    (metaUpdate st (newObjMeta oldPackage.repoRev newObj)).metaStore =
      setMeta st.metaStore (oldPackage.repoRev.name, oldPackage.repoRev.nspace)
        (newObjMeta oldPackage.repoRev newObj) ∧
    (newObjMeta oldPackage.repoRev newObj).labels = newObj.labels ∧
    (newObjMeta oldPackage.repoRev newObj).annotations = newObj.annotations :=
  ⟨update_published_path hopen hpub, rfl, rfl, rfl, rfl⟩

/-- The fixture old object with lifecycle Published. -/
def oldObjPubW : ApiPackageRevision :=
  { oldObjW with spec := { oldObjW.spec with lifecycle := LifecyclePublished } }

/-- Witness for C1 at the concrete published fixture. -/
theorem claim_C1_witness :
    UpdatePackageRevision envW st0 repoW oldPackageW oldObjPubW newObjW none =
      (metaUpdate st0 (newObjMeta oldPackageW.repoRev newObjW),
       .ok { repoRev := oldPackageW.repoRev,
             revMeta := newObjMeta oldPackageW.repoRev newObjW }) ∧
    (metaUpdate st0 (newObjMeta oldPackageW.repoRev newObjW)).events =
      st0.events ++ [Event.metaUpdated (newObjMeta oldPackageW.repoRev newObjW)] ∧
    (metaUpdate st0 (newObjMeta oldPackageW.repoRev newObjW)).metaStore =
      setMeta st0.metaStore (oldPackageW.repoRev.name, oldPackageW.repoRev.nspace)
        (newObjMeta oldPackageW.repoRev newObjW) ∧
    (newObjMeta oldPackageW.repoRev newObjW).labels = newObjW.labels ∧
    (newObjMeta oldPackageW.repoRev newObjW).annotations = newObjW.annotations :=
  claim_C1_published_frame rfl rfl

/-- C6: CreatePackageRevision rejects a Published desired lifecycle with a
validation error before any draft is created (the state, hence the event
trace, is unchanged); rejects any lifecycle outside the empty string, Draft,
Proposed and Published as unsupported, again before any draft; and with the
lifecycle unset proceeds with lifecycle defaulted to Draft. -/
theorem claim_C6_create_lifecycle_gate {env : Env} {st : EngineState}
    {repositoryObj : Repository} {obj : ApiPackageRevision}
    {parent : Option EnginePackageRevision} {cfg : PackageConfig}
    (hcfg : buildPackageConfig env obj parent = .ok cfg) :
    (obj.spec.lifecycle = LifecyclePublished →
      CreatePackageRevision env st repositoryObj obj parent =
        (st, .error "cannot create a package revision with lifecycle value 'Final'")) ∧
    (obj.spec.lifecycle ≠ "" → obj.spec.lifecycle ≠ LifecycleDraft →
     obj.spec.lifecycle ≠ LifecycleProposed → obj.spec.lifecycle ≠ LifecyclePublished →
      CreatePackageRevision env st repositoryObj obj parent =
        (st, .error ("unsupported lifecycle value: " ++ obj.spec.lifecycle))) ∧
    (obj.spec.lifecycle = "" → ∀ st2 res,
      CreatePackageRevision env st repositoryObj obj parent = (st2, .ok res) →
      res.repoRev.lifecycle = LifecycleDraft) := by
  refine ⟨?_, ?_, ?_⟩
  · intro hpub
    simp only [CreatePackageRevision, hcfg, hpub]
    rw [if_pos trivial]
  · intro h1 h2 h3 h4
    simp only [CreatePackageRevision, hcfg]
    rw [if_neg h4, if_pos ⟨h1, h2, h3⟩]
  · intro hu st2 res h
    simp only [CreatePackageRevision, hcfg, hu, if_true] at h
    rw [if_neg (by decide), if_neg (by decide)] at h
    cases ho : env.openRepo repositoryObj <;> simp only [ho] at h
    · simp at h
    · cases ha : applyTasks env (repoCreateDraft (effectiveCreateObj obj))
          repositoryObj (effectiveCreateObj obj) cfg <;>
        simp only [ha] at h
      · simp at h
      · rw [Prod.mk.injEq] at h
        obtain ⟨h1, h2⟩ := h
        cases h2
        simp [draftClose, draftUpdateLifecycle, effectiveCreateObj, hu]

/-- Witness for C6: a concrete Published create is rejected with a validation
error and an unchanged state. -/
theorem claim_C6_witness :
    CreatePackageRevision envW st0 repoW
        { newObjW with spec := { newObjW.spec with lifecycle := LifecyclePublished } } none =
      (st0, .error "cannot create a package revision with lifecycle value 'Final'") :=
  (claim_C6_create_lifecycle_gate
    (show buildPackageConfig envW
        { newObjW with spec := { newObjW.spec with lifecycle := LifecyclePublished } } none =
      .ok { packagePath := "net" } from rfl)).1 rfl

/-- Defaulting the lifecycle leaves the task list unchanged. -/
theorem effectiveCreateObj_tasks (obj : ApiPackageRevision) :
    (effectiveCreateObj obj).spec.tasks = obj.spec.tasks := by
  unfold effectiveCreateObj; split <;> rfl

/-- Defaulting the lifecycle leaves the package name unchanged. -/
theorem effectiveCreateObj_packageName (obj : ApiPackageRevision) :
    (effectiveCreateObj obj).spec.packageName = obj.spec.packageName := by
  unfold effectiveCreateObj; split <;> rfl

/-- Defaulting the lifecycle leaves the auto-prepend decision unchanged. -/
theorem autoInitList_effective (obj : ApiPackageRevision) :
    autoInitList (effectiveCreateObj obj) = autoInitList obj := by
  unfold effectiveCreateObj; split <;> rfl

/-- Success extraction for CreatePackageRevision: the closed revision records
the applyTasks chain, the metadata record carries the request's labels and
annotations, and the state gained the draft-creation and metadata events. -/
theorem create_success {env : Env} {st : EngineState} {repositoryObj : Repository}
    {obj : ApiPackageRevision} {parent : Option EnginePackageRevision}
    {st2 : EngineState} {res : EnginePackageRevision}
    (h : CreatePackageRevision env st repositoryObj obj parent = (st2, .ok res)) :
    ∃ cfg d1,
      buildPackageConfig env obj parent = .ok cfg ∧
      applyTasks env (repoCreateDraft (effectiveCreateObj obj)) repositoryObj
        (effectiveCreateObj obj) cfg = .ok d1 ∧
      res.repoRev = draftClose (draftUpdateLifecycle d1 (effectiveCreateObj obj).spec.lifecycle) ∧
      res.revMeta = { name := res.repoRev.name, nspace := res.repoRev.nspace,
                      labels := obj.labels, annotations := obj.annotations } ∧
      st2 = (metaCreate (emitEvent st (.draftCreated true)) res.revMeta).1 := by
  simp only [CreatePackageRevision] at h
  cases hb : buildPackageConfig env obj parent <;> simp only [hb] at h
  · simp at h
  · rename_i cfg
    by_cases hpub : obj.spec.lifecycle = LifecyclePublished
    · rw [if_pos hpub] at h; simp at h
    · rw [if_neg hpub] at h
      by_cases hbad : obj.spec.lifecycle ≠ "" ∧ obj.spec.lifecycle ≠ LifecycleDraft ∧
          obj.spec.lifecycle ≠ LifecycleProposed
      · rw [if_pos hbad] at h; simp at h
      · rw [if_neg hbad] at h
        cases ho : env.openRepo repositoryObj <;> simp only [ho] at h
        · simp at h
        · cases ha : applyTasks env (repoCreateDraft (effectiveCreateObj obj))
              repositoryObj (effectiveCreateObj obj) cfg <;> simp only [ha] at h
          · simp at h
          · rw [Prod.mk.injEq] at h
            obtain ⟨h1, h2⟩ := h
            cases h2
            exact ⟨cfg, _, rfl, ha, rfl, rfl, h1.symm⟩

/-- C4: on every successful CreatePackageRevision the stored task list is the
auto-prepended Init (exactly when the input list is empty or starts with
neither Init nor Clone), then the input tasks, then the Render auto-append;
the prepended Init task has description "name description" and an empty
subpackage, and when the first task is Init or Clone the stored list starts
with that task unchanged. -/
theorem claim_C4_init_autoprepend {env : Env} {st : EngineState} {repositoryObj : Repository}
    {obj : ApiPackageRevision} {parent : Option EnginePackageRevision}
    {st2 : EngineState} {res : EnginePackageRevision}
    (hs : ∀ t ∈ obj.spec.tasks, isRenderSentinel t = false)
    (hrun : CreatePackageRevision env st repositoryObj obj parent = (st2, .ok res)) :
    res.repoRev.tasks = autoInitList obj ++ obj.spec.tasks ++ [renderAuditTask] ∧
    (autoInitTask obj.spec.packageName).init =
      some { subpackage := "", description := obj.spec.packageName ++ " description" } ∧
    (obj.spec.tasks = [] →
      res.repoRev.tasks.head? = some (autoInitTask obj.spec.packageName)) ∧
    (∀ t0 ts, obj.spec.tasks = t0 :: ts → t0.type_ ≠ TaskTypeInit → t0.type_ ≠ TaskTypeClone →
      res.repoRev.tasks.head? = some (autoInitTask obj.spec.packageName)) ∧
    (∀ t0 ts, obj.spec.tasks = t0 :: ts → (t0.type_ = TaskTypeInit ∨ t0.type_ = TaskTypeClone) →
      res.repoRev.tasks.head? = some t0) := by
  obtain ⟨cfg, d1, hb, ha, hrev, hmeta, hst⟩ := create_success hrun
  have hsE : ∀ t ∈ (effectiveCreateObj obj).spec.tasks, isRenderSentinel t = false := by
    rw [effectiveCreateObj_tasks]; exact hs
  have hT := applyTasks_newTasks hsE ha
  have hB := applyTasks_baseTasks ha
  have htasks : res.repoRev.tasks = autoInitList obj ++ obj.spec.tasks ++ [renderAuditTask] := by
    rw [hrev]
    show d1.baseTasks ++ d1.newTasks = _
    rw [hB, hT, autoInitList_effective, effectiveCreateObj_tasks]
    rfl
  refine ⟨htasks, rfl, ?_, ?_, ?_⟩
  · intro hnil
    rw [htasks, hnil]
    simp [autoInitList, hnil]
  · intro t0 ts hcons h1 h2
    rw [htasks, hcons]
    simp [autoInitList, hcons, h1, h2]
  · intro t0 ts hcons h12
    rw [htasks, hcons]
    rcases h12 with h1 | h1 <;> simp [autoInitList, hcons, h1]

/-- The S1 fixture: create with empty task list and unset lifecycle. -/
def objS1 : ApiPackageRevision :=
  { name := "net-1", nspace := "ns", labels := [], annotations := [],
    spec := { packageName := "net", revision := "v1", lifecycle := "",
              tasks := [], readinessGates := [] },
    conditions := [] }

/-- The state after the S1 fixture create. -/
def st2W4 : EngineState := (CreatePackageRevision envW st0 repoW objS1 none).1

/-- The revision returned by the S1 fixture create. -/
def resW4 : EnginePackageRevision :=
  match (CreatePackageRevision envW st0 repoW objS1 none).2 with
  | .ok r => r
  | .error _ => { repoRev := storedW, revMeta := emptyMeta }

/-- The S1 fixture create succeeds with the projected state and revision. -/
theorem createS1_run :
    CreatePackageRevision envW st0 repoW objS1 none = (st2W4, .ok resW4) := rfl

/-- Witness for C4 at the S1 fixture (empty task list). -/
theorem claim_C4_witness :
    resW4.repoRev.tasks = autoInitList objS1 ++ objS1.spec.tasks ++ [renderAuditTask] ∧
    (autoInitTask objS1.spec.packageName).init =
      some { subpackage := "", description := objS1.spec.packageName ++ " description" } ∧
    (objS1.spec.tasks = [] →
      resW4.repoRev.tasks.head? = some (autoInitTask objS1.spec.packageName)) ∧
    (∀ t0 ts, objS1.spec.tasks = t0 :: ts → t0.type_ ≠ TaskTypeInit → t0.type_ ≠ TaskTypeClone →
      resW4.repoRev.tasks.head? = some (autoInitTask objS1.spec.packageName)) ∧
    (∀ t0 ts, objS1.spec.tasks = t0 :: ts → (t0.type_ = TaskTypeInit ∨ t0.type_ = TaskTypeClone) →
      resW4.repoRev.tasks.head? = some t0) :=
  claim_C4_init_autoprepend (by intro t ht; cases ht) createS1_run

/-- isRecloneAndReplay holds exactly when both task lists start with a Clone
task and those first tasks differ in some field (structural inequality,
matching Go reflect.DeepEqual). -/
theorem isRecloneAndReplay_iff (oldObj newObj : ApiPackageRevision) :
    isRecloneAndReplay oldObj newObj = true ↔
      ∃ o n, oldObj.spec.tasks.head? = some o ∧ newObj.spec.tasks.head? = some n ∧
        o.type_ = TaskTypeClone ∧ n.type_ = TaskTypeClone ∧ o ≠ n := by
  unfold isRecloneAndReplay
  cases ho : oldObj.spec.tasks with
  | nil => simp
  | cons o os =>
    cases hn : newObj.spec.tasks with
    | nil => simp
    | cons n ns =>
      simp only [List.head?_cons]
      constructor
      · intro h
        split at h
        · exact Bool.noConfusion h
        · split at h
          · exact Bool.noConfusion h
          · rename_i hc he
            push_neg at hc
            exact ⟨o, n, rfl, rfl, hc.1, hc.2, he⟩
      · rintro ⟨o2, n2, ho2, hn2, hto, htn, hne⟩
        cases ho2; cases hn2
        rw [if_neg (by push_neg; exact ⟨hto, htn⟩), if_neg hne]

/-- The reclone-and-replay path of UpdatePackageRevision, characterised: a
fresh draft is created (draftCreated true event), the metadata store is not
touched, and the returned revision is the replayed one with an empty metadata
record. -/
theorem update_reclone_path {env : Env} {st : EngineState} {repositoryObj : Repository}
    {oldPackage : EnginePackageRevision} {oldObj newObj : ApiPackageRevision}
    {parent : Option EnginePackageRevision} {cfg : PackageConfig} {rev : StoredRevision}
    (hopen : env.openRepo repositoryObj = .ok ())
    (hold : oldObj.spec.lifecycle = LifecycleDraft ∨ oldObj.spec.lifecycle = LifecycleProposed)
    (hnew : newObj.spec.lifecycle = LifecycleDraft ∨ newObj.spec.lifecycle = LifecycleProposed ∨
      newObj.spec.lifecycle = LifecyclePublished)
    (hrec : isRecloneAndReplay oldObj newObj = true)
    (hcfg : buildPackageConfig env newObj parent = .ok cfg)
    (hrr : recloneAndReplay env repositoryObj newObj cfg = .ok rev) :
    UpdatePackageRevision env st repositoryObj oldPackage oldObj newObj parent =
      (emitEvent st (.draftCreated true), .ok { repoRev := rev, revMeta := emptyMeta }) := by
  simp only [UpdatePackageRevision, hopen]
  rw [if_pos hold, if_pos hnew, if_pos hrec]
  simp only [hcfg, hrr]

/-- C2: the reclone-and-replay strategy is selected iff both task lists start
with Clone tasks that differ in some field; in that case the engine opens a
fresh draft through repository CreatePackageRevision (draftCreated true, never
the update-draft event) and the stored task list is the new task list plus the
Render auto-append, with no appended Update task; when the condition fails the
engine opens the draft through repository UpdatePackageRevision instead. -/
theorem claim_C2_reclone_strategy {env : Env} {st : EngineState} {repositoryObj : Repository}
    {oldPackage : EnginePackageRevision} {oldObj newObj : ApiPackageRevision}
    {parent : Option EnginePackageRevision} {cfg : PackageConfig}
    (hopen : env.openRepo repositoryObj = .ok ())
    (hold : oldObj.spec.lifecycle = LifecycleDraft ∨ oldObj.spec.lifecycle = LifecycleProposed)
    (hnew : newObj.spec.lifecycle = LifecycleDraft ∨ newObj.spec.lifecycle = LifecycleProposed ∨
      newObj.spec.lifecycle = LifecyclePublished)
    (hcfg : buildPackageConfig env newObj parent = .ok cfg)
    (hs : ∀ t ∈ newObj.spec.tasks, isRenderSentinel t = false) :
    (isRecloneAndReplay oldObj newObj = true ↔
      ∃ o n, oldObj.spec.tasks.head? = some o ∧ newObj.spec.tasks.head? = some n ∧
        o.type_ = TaskTypeClone ∧ n.type_ = TaskTypeClone ∧ o ≠ n) ∧
    (∀ rev, isRecloneAndReplay oldObj newObj = true →
      recloneAndReplay env repositoryObj newObj cfg = .ok rev →
      UpdatePackageRevision env st repositoryObj oldPackage oldObj newObj parent =
        (emitEvent st (.draftCreated true), .ok { repoRev := rev, revMeta := emptyMeta }) ∧
      (emitEvent st (.draftCreated true)).events = st.events ++ [Event.draftCreated true] ∧
      rev.tasks = newObj.spec.tasks ++ [renderAuditTask]) ∧
    (isRecloneAndReplay oldObj newObj = false →
      ∀ st2 res,
        UpdatePackageRevision env st repositoryObj oldPackage oldObj newObj parent =
          (st2, .ok res) →
        st2.events = st.events ++
          [Event.draftCreated false, Event.metaUpdated (newObjMeta res.repoRev newObj)]) := by
  refine ⟨isRecloneAndReplay_iff oldObj newObj, ?_, ?_⟩
  · intro rev hrec hrr
    refine ⟨update_reclone_path hopen hold hnew hrec hcfg hrr, rfl, ?_⟩
    obtain ⟨o, n, ho, hn, hto, htn, hne⟩ := (isRecloneAndReplay_iff oldObj newObj).mp hrec
    simp only [recloneAndReplay, bind, Except.bind] at hrr
    cases ha : applyTasks env (repoCreateDraft newObj) repositoryObj newObj cfg <;>
      simp only [ha] at hrr
    · exact Except.noConfusion hrr
    · rename_i d1
      cases hrr
      have hT := applyTasks_newTasks hs ha
      have hB := applyTasks_baseTasks ha
      show d1.baseTasks ++ d1.newTasks = _
      rw [hB, hT]
      have hinit : autoInitList newObj = [] := by
        cases hnt : newObj.spec.tasks with
        | nil => rw [hnt] at hn; exact Option.noConfusion hn
        | cons n0 ns =>
          rw [hnt] at hn
          simp only [List.head?_cons, Option.some.injEq] at hn
          subst hn
          simp [autoInitList, hnt, htn]
      rw [hinit]
      rfl
  · intro hrec st2 res h
    simp only [UpdatePackageRevision, hopen] at h
    rw [if_pos hold, if_pos hnew, if_neg (by simp [hrec])] at h
    repeat' split at h
    all_goals rw [Prod.mk.injEq] at h
    all_goals
      first
      | (simp at h; done)
      | (obtain ⟨h1, h2⟩ := h
         cases h2
         rw [← h1]
         simp [metaUpdate, emitEvent, newObjMeta])

/-- The concrete package config of the fixture. -/
def cfgW : PackageConfig := { packagePath := "net" }

/-- The revision produced by replaying the fixture reclone. -/
def revW2 : StoredRevision :=
  match recloneAndReplay envW repoW newObjW cfgW with
  | .ok r => r
  | .error _ => storedW

/-- The fixture reclone-and-replay succeeds with revW2. -/
theorem recloneW_run : recloneAndReplay envW repoW newObjW cfgW = .ok revW2 := rfl

/-- Witness for C2 at the fixture whose clone tasks differ (base-v1 to base-v2). -/
theorem claim_C2_witness :
    UpdatePackageRevision envW st0 repoW oldPackageW oldObjW newObjW none =
      (emitEvent st0 (.draftCreated true), .ok { repoRev := revW2, revMeta := emptyMeta }) ∧
    (emitEvent st0 (.draftCreated true)).events = st0.events ++ [Event.draftCreated true] ∧
    revW2.tasks = newObjW.spec.tasks ++ [renderAuditTask] :=
  (claim_C2_reclone_strategy rfl (Or.inl rfl) (Or.inl rfl)
    (show buildPackageConfig envW newObjW none = .ok cfgW from rfl)
    (by decide)).2.1 revW2 (by decide) recloneW_run

/-- A task-type difference at any shared index makes taskTypeMismatch true. -/
theorem taskTypeMismatch_of_get {oldTasks newTasks : List Task} {i : Nat}
    (hi : i < oldTasks.length) (hj : i < newTasks.length)
    (hne : (oldTasks.get ⟨i, hi⟩).type_ ≠ (newTasks.get ⟨i, hj⟩).type_) :
    taskTypeMismatch oldTasks newTasks = true := by
  unfold taskTypeMismatch
  rw [List.any_eq_true]
  have hz : i < (oldTasks.zip newTasks).length := by
    rw [List.length_zip]; omega
  refine ⟨(oldTasks.zip newTasks).get ⟨i, hz⟩, List.get_mem _ _ _, ?_⟩
  rw [List.get_eq_getElem, List.getElem_zip]
  simp only [List.get_eq_getElem] at hne
  simpa [bne_iff_ne] using hne

/-- C3: in the append-update path, a shorter new task list, an appended tail
of more than one task, a type change at a shared index, and an appended task
that is not an Update task with a non-nil Update payload each fail with the
corresponding not-supported (or missing-payload) error, leaving the state
untouched. -/
theorem claim_C3_append_validation {env : Env} {st : EngineState} {repositoryObj : Repository}
    {oldPackage : EnginePackageRevision} {oldObj newObj : ApiPackageRevision}
    {parent : Option EnginePackageRevision}
    (hopen : env.openRepo repositoryObj = .ok ())
    (hold : oldObj.spec.lifecycle = LifecycleDraft ∨ oldObj.spec.lifecycle = LifecycleProposed)
    (hnew : newObj.spec.lifecycle = LifecycleDraft ∨ newObj.spec.lifecycle = LifecycleProposed ∨
      newObj.spec.lifecycle = LifecyclePublished)
    (hrec : isRecloneAndReplay oldObj newObj = false) :
    (newObj.spec.tasks.length < oldObj.spec.tasks.length →
      UpdatePackageRevision env st repositoryObj oldPackage oldObj newObj parent =
        (st, .error "removing tasks is not yet supported")) ∧
    (oldObj.spec.tasks.length + 1 < newObj.spec.tasks.length →
      ∃ e, UpdatePackageRevision env st repositoryObj oldPackage oldObj newObj parent =
          (st, .error e) ∧
        (e = "changing task types is not yet supported" ∨
         e = "can only append one task at a time")) ∧
    (∀ i, (hi : i < oldObj.spec.tasks.length) → (hj : i < newObj.spec.tasks.length) →
      (oldObj.spec.tasks.get ⟨i, hi⟩).type_ ≠ (newObj.spec.tasks.get ⟨i, hj⟩).type_ →
      ∃ e, UpdatePackageRevision env st repositoryObj oldPackage oldObj newObj parent =
          (st, .error e) ∧
        (e = "removing tasks is not yet supported" ∨
         e = "changing task types is not yet supported")) ∧
    (newObj.spec.tasks.length = oldObj.spec.tasks.length + 1 →
     taskTypeMismatch oldObj.spec.tasks newObj.spec.tasks = false →
     ∀ lastTask, newObj.spec.tasks.getLast? = some lastTask →
      (lastTask.type_ ≠ TaskTypeUpdate →
        UpdatePackageRevision env st repositoryObj oldPackage oldObj newObj parent =
          (st, .error ("appended task is type " ++ quoteS lastTask.type_ ++
            ", must be type " ++ quoteS TaskTypeUpdate))) ∧
      (lastTask.type_ = TaskTypeUpdate → lastTask.update = none →
        UpdatePackageRevision env st repositoryObj oldPackage oldObj newObj parent =
          (st, .error ("update not set for updateTask of type " ++ quoteS lastTask.type_)))) := by
  refine ⟨?_, ?_, ?_, ?_⟩
  · intro hlen
    simp only [UpdatePackageRevision, hopen]
    rw [if_pos hold, if_pos hnew, if_neg (by simp [hrec]), if_pos hlen]
  · intro hlen2
    have hlen : ¬ newObj.spec.tasks.length < oldObj.spec.tasks.length := by omega
    simp only [UpdatePackageRevision, hopen]
    rw [if_pos hold, if_pos hnew, if_neg (by simp [hrec]), if_neg hlen]
    by_cases hmm : taskTypeMismatch oldObj.spec.tasks newObj.spec.tasks = true
    · rw [if_pos hmm]
      exact ⟨_, rfl, Or.inl rfl⟩
    · rw [if_neg hmm, if_pos (by omega), if_pos hlen2]
      exact ⟨_, rfl, Or.inr rfl⟩
  · intro i hi hj hne
    have hmm := taskTypeMismatch_of_get hi hj hne
    by_cases hlen : newObj.spec.tasks.length < oldObj.spec.tasks.length
    · refine ⟨_, ?_, Or.inl rfl⟩
      simp only [UpdatePackageRevision, hopen]
      rw [if_pos hold, if_pos hnew, if_neg (by simp [hrec]), if_pos hlen]
    · refine ⟨_, ?_, Or.inr rfl⟩
      simp only [UpdatePackageRevision, hopen]
      rw [if_pos hold, if_pos hnew, if_neg (by simp [hrec]), if_neg hlen, if_pos hmm]
  · intro hlen1 hmm lastTask hlast
    have hlen : ¬ newObj.spec.tasks.length < oldObj.spec.tasks.length := by omega
    constructor
    · intro htype
      simp only [UpdatePackageRevision, hopen]
      rw [if_pos hold, if_pos hnew, if_neg (by simp [hrec]), if_neg hlen,
        if_neg (by simp [hmm]), if_pos (by omega), if_neg (by omega)]
      simp only [hlast]
      rw [if_pos htype]
    · intro htype hupd
      simp only [UpdatePackageRevision, hopen]
      rw [if_pos hold, if_pos hnew, if_neg (by simp [hrec]), if_neg hlen,
        if_neg (by simp [hmm]), if_pos (by omega), if_neg (by omega)]
      simp only [hlast, hupd]
      rw [if_neg (by simp [htype])]

/-- Witness for C3: removing a task from the fixture fails not-supported with
the state unchanged. -/
theorem claim_C3_witness :
    UpdatePackageRevision envW st0 repoW oldPackageW oldObjW
        { newObjW with spec := { newObjW.spec with tasks := [] } } none =
      (st0, .error "removing tasks is not yet supported") :=
  (claim_C3_append_validation rfl (Or.inl rfl) (Or.inl rfl) (by decide)).1 (by decide)

/-- The per-file decision of the first diff loop of ReplaceResources: create
for new files, a unified-diff patch for changed files, nothing otherwise. -/
def diffDecision1 (env : Env) (old : FileMap) (kv : String × String) : Option PatchSpec :=
  match lookupFM old kv.1 with
  | none => some { file := kv.1, patchType := PatchTypeCreateFile, contents := kv.2 }
  | some oldV => if kv.2 ≠ oldV then some (GeneratePatch env kv.1 oldV kv.2) else none

/-- The per-file decision of the second diff loop: delete for removed files. -/
def diffDecision2 (new : FileMap) (kv : String × String) : Option PatchSpec :=
  match lookupFM new kv.1 with
  | none => some { file := kv.1, patchType := PatchTypeDeleteFile, contents := "" }
  | some _ => none

/-- An accumulate-append fold is the accumulator followed by a filterMap. -/
theorem foldl_append_toList {α β : Type} (f : α → Option β) :
    ∀ (l : List α) (acc : List β),
    l.foldl (fun a x => a ++ (f x).toList) acc = acc ++ l.filterMap f := by
  intro l
  induction l with
  | nil => intro acc; simp
  | cons x xs ih =>
    intro acc
    simp only [List.foldl_cons, List.filterMap_cons]
    cases hfx : f x <;> simp [ih]

/-- The first diff loop collects exactly its per-file decisions, in order. -/
theorem replacePatches1_eq (env : Env) (old : FileMap) (new : FileMap) :
    replacePatches1 env old new = new.filterMap (diffDecision1 env old) := by
  have hstep : (fun (acc : List PatchSpec) (kv : String × String) =>
      match lookupFM old kv.1 with
      | none => acc ++ [{ file := kv.1, patchType := PatchTypeCreateFile, contents := kv.2 }]
      | some oldV => if kv.2 ≠ oldV then acc ++ [GeneratePatch env kv.1 oldV kv.2] else acc) =
      (fun acc kv => acc ++ (diffDecision1 env old kv).toList) := by
    funext acc kv
    simp only [diffDecision1]
    cases lookupFM old kv.1 with
    | none => rfl
    | some v => by_cases h2 : kv.2 = v <;> simp [h2]
  unfold replacePatches1
  rw [hstep, foldl_append_toList]
  rfl

/-- The second diff loop collects exactly its per-file decisions, in order. -/
theorem replacePatches2_eq (old : FileMap) (new : FileMap) :
    replacePatches2 old new = old.filterMap (diffDecision2 new) := by
  have hstep : (fun (acc : List PatchSpec) (kv : String × String) =>
      match lookupFM new kv.1 with
      | none => acc ++ [{ file := kv.1, patchType := PatchTypeDeleteFile, contents := "" }]
      | some _ => acc) =
      (fun acc kv => acc ++ (diffDecision2 new kv).toList) := by
    funext acc kv
    simp only [diffDecision2]
    cases lookupFM new kv.1 with
    | none => rfl
    | some v => simp
  unfold replacePatches2
  rw [hstep, foldl_append_toList]
  rfl

/-- Filtering a per-key filterMap by file name isolates the decision of that
key, provided keys are unique and every produced patch names its key. -/
theorem filter_file_filterMap {g : String × String → Option PatchSpec}
    (hg : ∀ kv p, g kv = some p → p.file = kv.1) :
    ∀ (l : List (String × String)), (l.map Prod.fst).Nodup → ∀ (k : String),
    (l.filterMap g).filter (fun p => p.file == k) =
      (match l.find? (fun kv => kv.1 == k) with
       | none => []
       | some kv => (g kv).toList) := by
  intro l
  induction l with
  | nil => intro _ k; rfl
  | cons a l ih =>
    intro hnd k
    simp only [List.map_cons, List.nodup_cons] at hnd
    obtain ⟨hna, hnd2⟩ := hnd
    have hrest : ∀ p ∈ l.filterMap g, k = a.1 → (p.file == k) = false := by
      intro p hp hk
      obtain ⟨kv, hkv, hgkv⟩ := List.mem_filterMap.mp hp
      have hpf := hg kv p hgkv
      have hkv1 : kv.1 ∈ l.map Prod.fst := List.mem_map_of_mem _ hkv
      have hne : kv.1 ≠ a.1 := by
        intro he; rw [he] at hkv1; exact hna hkv1
      rw [hpf, hk]
      simp [hne]
    by_cases hak : a.1 = k
    · rw [List.find?_cons_of_pos _ (by simp [hak])]
      rw [List.filterMap_cons]
      cases hga : g a with
      | none =>
        simp only
        rw [List.filter_eq_nil_iff.mpr (by intro p hp; simp [hrest p hp hak.symm])]
        simp [hga]
      | some p =>
        simp only [List.filter_cons]
        rw [if_pos (by rw [hg a p hga]; simp [hak])]
        rw [List.filter_eq_nil_iff.mpr (by intro q hq; simp [hrest q hq hak.symm])]
        simp [hga]
    · rw [List.find?_cons_of_neg _ (by simp [hak])]
      rw [List.filterMap_cons]
      cases hga : g a with
      | none => exact ih hnd2 k
      | some p =>
        simp only [List.filter_cons]
        rw [if_neg (by rw [hg a p hga]; simp; exact hak)]
        exact ih hnd2 k

/-- lookupFM as a find? equation (some case). -/
theorem lookupFM_some {m : FileMap} {k v : String} (h : lookupFM m k = some v) :
    m.find? (fun kv => kv.1 == k) = some (k, v) := by
  simp only [lookupFM] at h
  cases hf : m.find? (fun kv => kv.1 == k) with
  | none => rw [hf] at h; exact Option.noConfusion h
  | some kv =>
    rw [hf] at h
    have hp := List.find?_some hf
    simp only [beq_iff_eq] at hp
    simp only [Option.map] at h
    have hkv : kv = (k, v) := by
      cases kv
      simp_all
    rw [hkv]

/-- lookupFM as a find? equation (none case). -/
theorem lookupFM_none {m : FileMap} {k : String} (h : lookupFM m k = none) :
    m.find? (fun kv => kv.1 == k) = none := by
  simp only [lookupFM] at h
  cases hf : m.find? (fun kv => kv.1 == k) with
  | none => rfl
  | some kv => rw [hf] at h; exact Option.noConfusion h

/-- Every patch produced by the first diff decision names its file key. -/
theorem diffDecision1_file {env : Env} {old : FileMap} :
    ∀ kv p, diffDecision1 env old kv = some p → p.file = kv.1 := by
  intro kv p h
  simp only [diffDecision1] at h
  split at h
  · cases h; rfl
  · split at h
    · cases h; rfl
    · exact Option.noConfusion h

/-- Every patch produced by the second diff decision names its file key. -/
theorem diffDecision2_file {new : FileMap} :
    ∀ kv p, diffDecision2 new kv = some p → p.file = kv.1 := by
  intro kv p h
  simp only [diffDecision2] at h
  split at h
  · cases h; rfl
  · exact Option.noConfusion h

/-- C7: the audit task of the ReplaceResources mutation is a Patch task with
exactly one PatchSpec per file differing between the old file set and the
healed new file set H: a CreateFile patch carrying the full contents for files
only in H, a unified-diff patch for files in both whose contents changed, a
DeleteFile patch for files only in the old set, and no entry for unchanged
files. -/
theorem claim_C7_replace_diff {env : Env} {old newInput H : FileMap}
    (hheal : healConfig env old newInput = .ok H)
    (hndold : (old.map Prod.fst).Nodup)
    (hndH : (H.map Prod.fst).Nodup) :
    ∃ ps,
      mutationReplaceResourcesApply env newInput old =
        .ok (H, { type_ := TaskTypePatch, patch := some { patches := ps } }) ∧
      (∀ k v, lookupFM H k = some v → lookupFM old k = none →
        ps.filter (fun p => p.file == k) =
          [{ file := k, patchType := PatchTypeCreateFile, contents := v }]) ∧
      (∀ k v w, lookupFM H k = some v → lookupFM old k = some w → v ≠ w →
        ps.filter (fun p => p.file == k) = [GeneratePatch env k w v]) ∧
      (∀ k v, lookupFM H k = some v → lookupFM old k = some v →
        ps.filter (fun p => p.file == k) = []) ∧
      (∀ k w, lookupFM H k = none → lookupFM old k = some w →
        ps.filter (fun p => p.file == k) =
          [{ file := k, patchType := PatchTypeDeleteFile, contents := "" }]) ∧
      (∀ k, lookupFM H k = none → lookupFM old k = none →
        ps.filter (fun p => p.file == k) = []) := by
  have e1 := replacePatches1_eq env old H
  have e2 := replacePatches2_eq old H
  have f1 := filter_file_filterMap (@diffDecision1_file env old) H hndH
  have f2 := filter_file_filterMap (@diffDecision2_file H) old hndold
  refine ⟨replacePatches1 env old H ++ replacePatches2 old H, ?_, ?_, ?_, ?_, ?_, ?_⟩
  · simp only [mutationReplaceResourcesApply, bind, Except.bind, hheal]
  · intro k v hH hO
    rw [List.filter_append, e1, e2, f1 k, f2 k, lookupFM_some hH, lookupFM_none hO]
    simp [diffDecision1, diffDecision2, hH, hO]
  · intro k v w hH hO hne
    rw [List.filter_append, e1, e2, f1 k, f2 k, lookupFM_some hH, lookupFM_some hO]
    simp [diffDecision1, diffDecision2, hH, hO, hne]
  · intro k v hH hO
    rw [List.filter_append, e1, e2, f1 k, f2 k, lookupFM_some hH, lookupFM_some hO]
    simp [diffDecision1, diffDecision2, hH, hO]
  · intro k w hH hO
    rw [List.filter_append, e1, e2, f1 k, f2 k, lookupFM_none hH, lookupFM_some hO]
    simp [diffDecision1, diffDecision2, hH, hO]
  · intro k hH hO
    rw [List.filter_append, e1, e2, f1 k, f2 k, lookupFM_none hH, lookupFM_none hO]
    rfl

/-- The old file set of the C7 fixture. -/
def oldW7 : FileMap := [("a.yaml", "x"), ("b.yaml", "y")]

/-- The replacement file set of the C7 fixture (a.yaml changed, b.yaml
deleted, c.yaml created). -/
def newW7 : FileMap := [("a.yaml", "x2"), ("c.yaml", "z")]

/-- Witness for C7 at the fixture file sets (healing is the identity under
the trivial oracle environment). -/
theorem claim_C7_witness :
    ∃ ps,
      mutationReplaceResourcesApply envW newW7 oldW7 =
        .ok (newW7, { type_ := TaskTypePatch, patch := some { patches := ps } }) ∧
      (∀ k v, lookupFM newW7 k = some v → lookupFM oldW7 k = none →
        ps.filter (fun p => p.file == k) =
          [{ file := k, patchType := PatchTypeCreateFile, contents := v }]) ∧
      (∀ k v w, lookupFM newW7 k = some v → lookupFM oldW7 k = some w → v ≠ w →
        ps.filter (fun p => p.file == k) = [GeneratePatch envW k w v]) ∧
      (∀ k v, lookupFM newW7 k = some v → lookupFM oldW7 k = some v →
        ps.filter (fun p => p.file == k) = []) ∧
      (∀ k w, lookupFM newW7 k = none → lookupFM oldW7 k = some w →
        ps.filter (fun p => p.file == k) =
          [{ file := k, patchType := PatchTypeDeleteFile, contents := "" }]) ∧
      (∀ k, lookupFM newW7 k = none → lookupFM oldW7 k = none →
        ps.filter (fun p => p.file == k) = []) :=
  claim_C7_replace_diff
    (show healConfig envW oldW7 newW7 = .ok newW7 from rfl) (by decide) (by decide)

/-- healNode is the identity when every comment copy fails: the discarded
CopyComments error never surfaces and the node stays un-healed. -/
theorem healNode_copyFail {env : Env} (hfail : ∀ a b, env.copyComments a b = none) :
    ∀ (oldNodes : List Node) (n : Node), healNode env oldNodes n = n := by
  intro oldNodes
  induction oldNodes with
  | nil => intro n; rfl
  | cons o os ih =>
    intro n
    unfold healNode
    simp only [List.foldl_cons]
    have hstep : (if n.nspace = o.nspace ∧ n.name = o.name ∧
          n.apiVersion = o.apiVersion ∧ n.kind = o.kind then
          match env.copyComments o n with
          | some healed => healed
          | none => n
        else n) = n := by
      split
      · rw [hfail o n]
      · rfl
    rw [hstep]
    have := ih n
    unfold healNode at this
    exact this

/-- C8: when the comment-copy step inside healConfig fails on every node, the
failure is swallowed (CopyComments' error value is discarded): healConfig
still succeeds with the un-healed new file set, and the ReplaceResources
mutation continues, returning no error, performing the replacement with that
file set and still producing the Patch diff task. -/
theorem claim_C8_heal_copy_swallowed {env : Env} {old newInput : FileMap}
    {oldNodes : List Node} {ex0 : FileMap} {newNodes : List Node} {extra written : FileMap}
    (hfail : ∀ a b, env.copyComments a b = none)
    (hro : env.readNodes old = .ok (oldNodes, ex0))
    (hrn : env.readNodes newInput = .ok (newNodes, extra))
    (hw : env.writeNodes newNodes = .ok written)
    (hrt : extra.foldl (fun acc kv => setFM acc kv.1 kv.2) written = newInput) :
    healConfig env old newInput = .ok newInput ∧
    ∃ t, mutationReplaceResourcesApply env newInput old = .ok (newInput, t) ∧
      t.type_ = TaskTypePatch := by
  have hheal : healConfig env old newInput = .ok newInput := by
    simp only [healConfig, bind, Except.bind, hro, hrn]
    have hmap : newNodes.map (healNode env oldNodes) = newNodes := by
      have h1 : newNodes.map (healNode env oldNodes) = newNodes.map (fun n => n) :=
        List.map_congr_left (fun n _ => healNode_copyFail hfail oldNodes n)
      rw [h1, List.map_id']
    rw [hmap, hw]
    simp [hrt]
  refine ⟨hheal, ?_⟩
  refine ⟨{ type_ := TaskTypePatch,
            patch := some { patches :=
              replacePatches1 env old newInput ++ replacePatches2 old newInput } }, ?_, rfl⟩
  simp only [mutationReplaceResourcesApply, bind, Except.bind, hheal]

/-- The all-copy-failures environment for the C8 witness. -/
def envW8 : Env := { envW with copyComments := fun _ _ => none }

/-- Witness for C8 at the fixture file sets under the all-failures
environment. -/
theorem claim_C8_witness :
    healConfig envW8 oldW7 newW7 = .ok newW7 ∧
    ∃ t, mutationReplaceResourcesApply envW8 newW7 oldW7 = .ok (newW7, t) ∧
      t.type_ = TaskTypePatch :=
  claim_C8_heal_copy_swallowed (fun _ _ => rfl) rfl rfl rfl (by decide)

/-- extractFromDocs succeeds when every non-whitespace document parses, and
collects exactly the parsed context ConfigMaps of the document list. -/
theorem extractFromDocs_ok {env : Env} {itemPath : String} :
    ∀ {docs : List String},
    (∀ d ∈ docs, isWhitespace d = false → ∃ o, env.parseYaml d = .ok o) →
    ∃ ms, extractFromDocs env itemPath docs = .ok ms ∧
      ∀ o, o ∈ ms ↔ ∃ d ∈ docs, isWhitespace d = false ∧
        env.parseYaml d = .ok o ∧ isContextConfigMap o = true := by
  intro docs
  induction docs with
  | nil =>
    intro _
    exact ⟨[], rfl, by simp⟩
  | cons d0 rest ih =>
    intro hp
    obtain ⟨ms, hms, hmem⟩ := ih (fun d hd hw => hp d (List.mem_cons_of_mem _ hd) hw)
    by_cases hw : isWhitespace d0 = true
    · refine ⟨ms, ?_, ?_⟩
      · unfold extractFromDocs
        rw [if_pos hw]
        exact hms
      · intro o
        rw [hmem o]
        constructor
        · rintro ⟨d, hd, hwd, hpd, hc⟩
          exact ⟨d, List.mem_cons_of_mem _ hd, hwd, hpd, hc⟩
        · rintro ⟨d, hd, hwd, hpd, hc⟩
          rcases List.mem_cons.mp hd with h0 | h0
          · subst h0; rw [hw] at hwd; cases hwd
          · exact ⟨d, h0, hwd, hpd, hc⟩
    · have hwf : isWhitespace d0 = false := by simpa using hw
      obtain ⟨o0, ho0⟩ := hp d0 (List.mem_cons_self _ _) hwf
      refine ⟨(if isContextConfigMap o0 then [o0] else []) ++ ms, ?_, ?_⟩
      · unfold extractFromDocs
        rw [if_neg hw]
        simp only [ho0, hms, bind, Except.bind]
      · intro o
        constructor
        · intro hin
          rcases List.mem_append.mp hin with h1 | h1
          · have hctx : isContextConfigMap o0 = true ∧ o = o0 := by
              by_cases hc : isContextConfigMap o0 = true
              · rw [if_pos hc] at h1
                simp only [List.mem_singleton] at h1
                exact ⟨hc, h1⟩
              · rw [if_neg hc] at h1
                cases h1
            obtain ⟨hc, ho⟩ := hctx
            subst ho
            exact ⟨d0, List.mem_cons_self _ _, hwf, ho0, hc⟩
          · obtain ⟨d, hd, hwd, hpd, hc⟩ := (hmem o).mp h1
            exact ⟨d, List.mem_cons_of_mem _ hd, hwd, hpd, hc⟩
        · rintro ⟨d, hd, hwd, hpd, hc⟩
          rcases List.mem_cons.mp hd with h0 | h0
          · subst h0
            rw [ho0] at hpd
            cases hpd
            apply List.mem_append.mpr
            exact Or.inl (by rw [if_pos hc]; exact List.mem_singleton.mpr rfl)
          · exact List.mem_append.mpr (Or.inr ((hmem o).mpr ⟨d, h0, hwd, hpd, hc⟩))

/-- extractMatches succeeds when every document of every yaml file parses, and
collects exactly the context ConfigMaps found in yaml files (other files are
skipped). -/
theorem extractMatches_ok {env : Env} :
    ∀ {resources : FileMap},
    (∀ kv ∈ resources, isYamlExt ((pathExt kv.1).toLower) = true →
      ∀ d ∈ kv.2.splitOn "\n---\n", isWhitespace d = false →
        ∃ o, env.parseYaml d = .ok o) →
    ∃ ms, extractMatches env resources = .ok ms ∧
      ∀ o, o ∈ ms ↔ ∃ kv ∈ resources, isYamlExt ((pathExt kv.1).toLower) = true ∧
        ∃ d ∈ kv.2.splitOn "\n---\n", isWhitespace d = false ∧
          env.parseYaml d = .ok o ∧ isContextConfigMap o = true := by
  intro resources
  induction resources with
  | nil =>
    intro _
    exact ⟨[], rfl, by simp⟩
  | cons kv0 rest ih =>
    intro hp
    obtain ⟨p, c⟩ := kv0
    obtain ⟨ms, hms, hmem⟩ := ih (fun kv hkv => hp kv (List.mem_cons_of_mem _ hkv))
    by_cases hy : isYamlExt ((pathExt (p, c).1).toLower) = true
    · obtain ⟨ds, hds, hdmem⟩ :=
        @extractFromDocs_ok env (p, c).1 ((p, c).2.splitOn "\n---\n")
          (hp (p, c) (List.mem_cons_self _ _) hy)
      refine ⟨ds ++ ms, ?_, ?_⟩
      · unfold extractMatches
        rw [if_pos hy]
        simp only [hds, hms, bind, Except.bind]
      · intro o
        constructor
        · intro hin
          rcases List.mem_append.mp hin with h1 | h1
          · obtain ⟨d, hd, hwd, hpd, hc⟩ := (hdmem o).mp h1
            exact ⟨(p, c), List.mem_cons_self _ _, hy, d, hd, hwd, hpd, hc⟩
          · obtain ⟨kv, hkv, hyy, d, hd, hwd, hpd, hc⟩ := (hmem o).mp h1
            exact ⟨kv, List.mem_cons_of_mem _ hkv, hyy, d, hd, hwd, hpd, hc⟩
        · rintro ⟨kv, hkv, hyy, d, hd, hwd, hpd, hc⟩
          rcases List.mem_cons.mp hkv with h0 | h0
          · subst h0
            exact List.mem_append.mpr (Or.inl ((hdmem o).mpr ⟨d, hd, hwd, hpd, hc⟩))
          · exact List.mem_append.mpr
              (Or.inr ((hmem o).mpr ⟨kv, h0, hyy, d, hd, hwd, hpd, hc⟩))
    · refine ⟨ms, ?_, ?_⟩
      · unfold extractMatches
        rw [if_neg hy]
        exact hms
      · intro o
        rw [hmem o]
        constructor
        · rintro ⟨kv, hkv, hyy, rest2⟩
          exact ⟨kv, List.mem_cons_of_mem _ hkv, hyy, rest2⟩
        · rintro ⟨kv, hkv, hyy, rest2⟩
          rcases List.mem_cons.mp hkv with h0 | h0
          · subst h0; exact absurd hyy hy
          · exact ⟨kv, h0, hyy, rest2⟩

/-- C9: ExtractContextConfigMap parses only .yaml/.yml files
(case-insensitively), splits them on the document separator, skips
whitespace-only documents, and over the collected context ConfigMaps returns
nil for zero matches, the single object for one, and a conflict error for two
or more. -/
theorem claim_C9_context_extraction {env : Env} {resources : FileMap}
    (hparse : ∀ kv ∈ resources, isYamlExt ((pathExt kv.1).toLower) = true →
      ∀ d ∈ kv.2.splitOn "\n---\n", isWhitespace d = false →
        ∃ o, env.parseYaml d = .ok o) :
    ∃ ms, extractMatches env resources = .ok ms ∧
      (∀ o, o ∈ ms ↔ ∃ kv ∈ resources, isYamlExt ((pathExt kv.1).toLower) = true ∧
        ∃ d ∈ kv.2.splitOn "\n---\n", isWhitespace d = false ∧
          env.parseYaml d = .ok o ∧ isContextConfigMap o = true) ∧
      ExtractContextConfigMap env resources =
        (match ms with
         | [] => .ok none
         | [m] => .ok (some m)
         | _ => .error ("found multiple configmaps matching name " ++ quoteS PkgContextFile)) := by
  obtain ⟨ms, hms, hmem⟩ := extractMatches_ok hparse
  refine ⟨ms, hms, hmem, ?_⟩
  simp only [ExtractContextConfigMap, hms, bind, Except.bind]

/-- The C9 fixture: one yaml file holding a context ConfigMap and one skipped
non-yaml file. -/
def resourcesW9 : FileMap := [("ctx.yaml", "apiVersion: v1"), ("notes.txt", "hi")]

/-- Witness for C9 at the fixture file set. -/
theorem claim_C9_witness :
    ∃ ms, extractMatches envW resourcesW9 = .ok ms ∧
      (∀ o, o ∈ ms ↔ ∃ kv ∈ resourcesW9, isYamlExt ((pathExt kv.1).toLower) = true ∧
        ∃ d ∈ kv.2.splitOn "\n---\n", isWhitespace d = false ∧
          envW.parseYaml d = .ok o ∧ isContextConfigMap o = true) ∧
      ExtractContextConfigMap envW resourcesW9 =
        (match ms with
         | [] => .ok none
         | [m] => .ok (some m)
         | _ => .error ("found multiple configmaps matching name " ++ quoteS PkgContextFile)) :=
  claim_C9_context_extraction (by intro kv hkv hy d hd hw; exact ⟨_, rfl⟩)

/-- Counterexample to C10: a successful reclone-and-replay update (C2 fixture)
leaves the metadata store untouched and returns a revision carrying the empty
metadata record, which differs from the record the store still holds for that
revision name, so not every successful UpdatePackageRevision updates the
metadata store nor returns a record consistent with it. -/
theorem claim_C10_counterexample :
    (UpdatePackageRevision envW st0 repoW oldPackageW oldObjW newObjW none).1.metaStore =
      st0.metaStore ∧
    (UpdatePackageRevision envW st0 repoW oldPackageW oldObjW newObjW none).2 =
      .ok { repoRev := revW2, revMeta := emptyMeta } ∧
    revW2.name = "pkg-old" ∧
    st0.metaStore.find? (fun kv => kv.1 == ("pkg-old", "ns")) = some (("pkg-old", "ns"), metaW) ∧
    emptyMeta ≠ metaW := by
  refine ⟨rfl, rfl, rfl, rfl, ?_⟩
  decide

/-- C10 (amended): the metadata record is created by CreatePackageRevision,
deleted by DeletePackageRevision, and updated (with the returned revision
carrying that record) by UpdatePackageRevision on the published-metadata-only
path and on the append-update path; but the reclone-and-replay path and
UpdatePackageResources write nothing to the metadata store and return a
revision with an empty metadata record. -/
theorem claim_C10_metadata_ownership {env : Env} :
    (∀ st repositoryObj obj parent st2 res,
      CreatePackageRevision env st repositoryObj obj parent = (st2, .ok res) →
      st2.metaStore = setMeta st.metaStore (res.repoRev.name, res.repoRev.nspace) res.revMeta ∧
      res.revMeta = { name := res.repoRev.name, nspace := res.repoRev.nspace,
                      labels := obj.labels, annotations := obj.annotations }) ∧
    (∀ st repositoryObj oldPackage st2,
      DeletePackageRevision env st repositoryObj oldPackage = (st2, .ok ()) →
      st2.metaStore = removeMeta st.metaStore
        (oldPackage.repoRev.name, oldPackage.repoRev.nspace)) ∧
    (∀ st repositoryObj oldPackage oldObj newObj parent st2 res,
      oldObj.spec.lifecycle = LifecyclePublished →
      UpdatePackageRevision env st repositoryObj oldPackage oldObj newObj parent =
        (st2, .ok res) →
      st2.metaStore = setMeta st.metaStore
        (oldPackage.repoRev.name, oldPackage.repoRev.nspace) res.revMeta ∧
      res.revMeta = newObjMeta oldPackage.repoRev newObj) ∧
    (∀ st repositoryObj oldPackage oldObj newObj parent st2 res,
      (oldObj.spec.lifecycle = LifecycleDraft ∨ oldObj.spec.lifecycle = LifecycleProposed) →
      isRecloneAndReplay oldObj newObj = false →
      UpdatePackageRevision env st repositoryObj oldPackage oldObj newObj parent =
        (st2, .ok res) →
      st2.metaStore = setMeta st.metaStore (res.repoRev.name, res.repoRev.nspace) res.revMeta ∧
      res.revMeta = newObjMeta res.repoRev newObj) ∧
    (∀ st repositoryObj oldPackage oldObj newObj parent st2 res,
      (oldObj.spec.lifecycle = LifecycleDraft ∨ oldObj.spec.lifecycle = LifecycleProposed) →
      isRecloneAndReplay oldObj newObj = true →
      UpdatePackageRevision env st repositoryObj oldPackage oldObj newObj parent =
        (st2, .ok res) →
      st2.metaStore = st.metaStore ∧ res.revMeta = emptyMeta) ∧
    (∀ st repositoryObj oldPackage newRes st2 res,
      UpdatePackageResources env st repositoryObj oldPackage newRes = (st2, .ok res) →
      st2.metaStore = st.metaStore ∧ res.revMeta = emptyMeta) := by
  refine ⟨?_, ?_, ?_, ?_, ?_, ?_⟩
  · intro st repositoryObj obj parent st2 res h
    obtain ⟨cfg, d1, _, _, _, hmeta, hst⟩ := create_success h
    subst hst
    refine ⟨?_, hmeta⟩
    simp [metaCreate, emitEvent, hmeta]
  · intro st repositoryObj oldPackage st2 h
    simp only [DeletePackageRevision] at h
    cases ho : env.openRepo repositoryObj <;> simp only [ho] at h
    · simp at h
    · cases hd : env.deleteRevision oldPackage.repoRev <;> simp only [hd] at h
      · simp at h
      · rw [Prod.mk.injEq] at h
        rw [← h.1]
        simp [metaDelete, emitEvent]
  · intro st repositoryObj oldPackage oldObj newObj parent st2 res hpub h
    cases ho : env.openRepo repositoryObj with
    | error e =>
      simp only [UpdatePackageRevision, ho] at h
      simp at h
    | ok u =>
      cases u
      rw [update_published_path ho hpub] at h
      rw [Prod.mk.injEq] at h
      obtain ⟨h1, h2⟩ := h
      cases h2
      rw [← h1]
      exact ⟨by simp [metaUpdate, newObjMeta], rfl⟩
  · intro st repositoryObj oldPackage oldObj newObj parent st2 res hold hrec h
    simp only [UpdatePackageRevision] at h
    cases ho : env.openRepo repositoryObj <;> simp only [ho] at h
    · simp at h
    · rw [if_pos hold] at h
      split at h
      · rw [if_neg (by simp [hrec])] at h
        repeat' split at h
        all_goals rw [Prod.mk.injEq] at h
        all_goals
          first
          | (simp at h; done)
          | (obtain ⟨h1, h2⟩ := h
             cases h2
             rw [← h1]
             exact ⟨by simp [metaUpdate, emitEvent, setMeta, newObjMeta], rfl⟩)
      · simp at h
  · intro st repositoryObj oldPackage oldObj newObj parent st2 res hold hrec h
    simp only [UpdatePackageRevision] at h
    cases ho : env.openRepo repositoryObj <;> simp only [ho] at h
    · simp at h
    · rw [if_pos hold] at h
      split at h
      · try rw [if_pos hrec] at h
        repeat' split at h
        all_goals try rw [Prod.mk.injEq] at h
        all_goals
          first
          | (simp at h; done)
          | (obtain ⟨h1, h2⟩ := h
             cases h2
             rw [← h1]
             exact ⟨by simp [emitEvent], rfl⟩)
      · simp at h
  · intro st repositoryObj oldPackage newRes st2 res h
    simp only [UpdatePackageResources] at h
    repeat' split at h
    all_goals rw [Prod.mk.injEq] at h
    all_goals
      first
      | (simp at h; done)
      | (obtain ⟨h1, h2⟩ := h
         cases h2
         rw [← h1]
         exact ⟨by simp [emitEvent], rfl⟩)

/-- Witness for the amended C10 at the reclone fixture: the store is unchanged
and the returned metadata record is empty. -/
theorem claim_C10_witness :
    (emitEvent st0 (Event.draftCreated true)).metaStore = st0.metaStore ∧
    EnginePackageRevision.revMeta { repoRev := revW2, revMeta := emptyMeta } = emptyMeta :=
  (@claim_C10_metadata_ownership envW).2.2.2.2.1 st0 repoW oldPackageW oldObjW newObjW none
    (emitEvent st0 (Event.draftCreated true)) { repoRev := revW2, revMeta := emptyMeta }
    (Or.inl rfl) (by decide) rfl

end Porch
